import Mathlib

/-!
Shallow embedding of the Hybris HAC client core
(`src/hybris-client.ts`, class `HybrisClient`): the cookie/CSRF session
manager (`ensureHacSession`), the session-aware request pipeline
(`hacRequest`), the basic-auth pipeline (`request`), and their helpers
(`mergeCookies`, `extractCsrfToken`, `extractCookies`, `fetchWithTimeout`,
`searchProducts`, `healthCheck`).

The network is modelled as an oracle `Nat → NetEvent` consulted once per
`fetch` call (the call counter is part of the client state), so that a
scripted server behaviour can drive the client.  JavaScript exceptions are
modelled as `Except String` (the thrown `Error` message), threaded through
an explicit state monad in which state mutations performed before a throw
persist — exactly as the TypeScript class fields behave.
-/

/-! ## Character & string helpers (List-Char based, kernel-reducible) -/

/-- The double-quote character. -/
def dquoteChar : Char := Char.ofNat 34

/-- The single-quote character. -/
def squoteChar : Char := Char.ofNat 39

/-- Case-insensitive character equality (ASCII, as used by the `/i` regex
flag on the ASCII literals of `extractCsrfToken`). -/
def ciEq (a b : Char) : Bool := a.toLower == b.toLower

/-- Membership in the regex character class `["']`. -/
def isQuoteChar (c : Char) : Bool := c == dquoteChar || c == squoteChar

/-- `ciLit pat cs`: the literal `pat` matches case-insensitively at the
head of `cs`. -/
def ciLit : List Char → List Char → Bool
  | [], _ => true
  | _ :: _, [] => false
  | a :: as, b :: bs => ciEq a b && ciLit as bs

/-- `listHasSub sub l`: `sub` occurs as a contiguous sublist of `l`
(the semantics of JavaScript `String.prototype.includes`). -/
def listHasSub (sub : List Char) : List Char → Bool
  | [] => sub.isEmpty
  | c :: cs => (sub.isPrefixOf (c :: cs)) || listHasSub sub cs

/-- JavaScript `s.includes(sub)`. -/
def strIncludes (s sub : String) : Bool := listHasSub sub.toList s.toList

/-- JavaScript `s.substring(0, n)` (code-unit counting coincides with
character counting on the ASCII bodies in scope here). -/
def strTake (s : String) (n : Nat) : String := String.mk (s.toList.take n)

/-- JavaScript `s.startsWith(p)`. -/
def strStartsWith (s p : String) : Bool := p.toList.isPrefixOf s.toList

/-- `cookie.split('=')[0]`: the part of the string before the first `=`
(the whole string when no `=` occurs). -/
def cookieName (c : String) : String := String.mk (c.toList.takeWhile (· ≠ '='))

/-- `cookie.split(';')[0]`: the part of the string before the first `;`. -/
def cookieNameValue (c : String) : String := String.mk (c.toList.takeWhile (· ≠ ';'))

/-! ## The CSRF-token scraper (`extractCsrfToken`, lines 181–194)

The TypeScript tries four regular expressions in order against the HTML:

  1. `/name=["']_csrf["'][^>]*content=["']([^"']+)["']/i`
  2. `/content=["']([^"']+)["'][^>]*name=["']_csrf["']/i`
  3. `/name=["']_csrf["'][^>]*value=["']([^"']+)["']/i`
  4. `/value=["']([^"']+)["'][^>]*name=["']_csrf["']/i`

and returns capture group 1 of the first pattern that matches, else `null`.
We embed exactly this pattern language: case-insensitive literals, the
class `["']`, the greedy `[^>]*`, and the greedy capturing `([^"']+)`,
with JavaScript backtracking semantics (leftmost match; greedy
quantifiers try the longest extent first and give back from the right). -/

/-- The pattern elements occurring in the four CSRF regexes. -/
inductive RE where
  | lit (s : String)
  | quoteCls
  | starNonGt
  | plusNonQuoteCap
deriving Repr, DecidableEq

/-- Greedy backtracking matcher: `matchItems its cs` attempts to match the
pattern `its` against a prefix of `cs`; on success it returns the contents
of capture group 1 if the capture participated in the match. -/
def matchItems : List RE → List Char → Option (Option (List Char))
  | [], _ => some none
  | RE.lit s :: rest, cs =>
      if ciLit s.toList cs then matchItems rest (cs.drop s.toList.length) else none
  | RE.quoteCls :: rest, cs =>
      match cs with
      | [] => none
      | c :: cs' => if isQuoteChar c then matchItems rest cs' else none
  | RE.starNonGt :: rest, cs =>
      -- greedy: the longest run of non-'>' characters first, then shorter
      (List.range ((cs.takeWhile (· ≠ '>')).length + 1)).reverse.findSome?
        (fun k => matchItems rest (cs.drop k))
  | RE.plusNonQuoteCap :: rest, cs =>
      -- greedy, at least one character, none of them a quote
      (List.range' 1 ((cs.takeWhile (fun c => !isQuoteChar c)).length)).reverse.findSome?
        (fun k => (matchItems rest (cs.drop k)).map (fun _ => some (cs.take k)))

/-- Leftmost search: try `matchItems` at every start position, left to
right (the semantics of `String.prototype.match` without the `g` flag);
returns capture group 1 of the first (leftmost) match. -/
def searchCapture (its : List RE) : List Char → Option (List Char)
  | [] => (matchItems its []).map (fun g => g.getD [])
  | c :: cs' =>
    match matchItems its (c :: cs') with
    | some g => some (g.getD [])
    | none => searchCapture its cs'

/-- Pattern 1: `name=["']_csrf["'][^>]*content=["']([^"']+)["']`. -/
def csrfPat1 : List RE :=
  [.lit "name=", .quoteCls, .lit "_csrf", .quoteCls, .starNonGt,
   .lit "content=", .quoteCls, .plusNonQuoteCap, .quoteCls]

/-- Pattern 2: `content=["']([^"']+)["'][^>]*name=["']_csrf["']`. -/
def csrfPat2 : List RE :=
  [.lit "content=", .quoteCls, .plusNonQuoteCap, .quoteCls, .starNonGt,
   .lit "name=", .quoteCls, .lit "_csrf", .quoteCls]

/-- Pattern 3: `name=["']_csrf["'][^>]*value=["']([^"']+)["']`. -/
def csrfPat3 : List RE :=
  [.lit "name=", .quoteCls, .lit "_csrf", .quoteCls, .starNonGt,
   .lit "value=", .quoteCls, .plusNonQuoteCap, .quoteCls]

/-- Pattern 4: `value=["']([^"']+)["'][^>]*name=["']_csrf["']`. -/
def csrfPat4 : List RE :=
  [.lit "value=", .quoteCls, .plusNonQuoteCap, .quoteCls, .starNonGt,
   .lit "name=", .quoteCls, .lit "_csrf", .quoteCls]

/-- `extractCsrfToken` (lines 181–194): try the four patterns in order,
return the first capture, else `null` (modelled as `none`). -/
def extractCsrfToken (html : String) : Option String :=
  [csrfPat1, csrfPat2, csrfPat3, csrfPat4].findSome?
    (fun p => (searchCapture p html.toList).map String.mk)

/-! ## Cookie merging (`mergeCookies`, lines 127–134)

The TypeScript builds a `Map` keyed on `cookie.split('=')[0]`, inserting
`existing` then `incoming` (so later values win), and returns
`Array.from(map.values())`.  A JavaScript `Map` keeps first-insertion
order for keys and updates values in place. -/

/-- `Map.prototype.set`: update the (unique, by the invariant of `Map`)
entry with key `k` in place, or append a new entry. -/
def mapSet (m : List (String × String)) (k v : String) : List (String × String) :=
  if m.any (fun p => p.1 == k) then m.map (fun p => if p.1 == k then (k, v) else p)
  else m ++ [(k, v)]

/-- `mergeCookies` (lines 127–134). -/
def mergeCookies (existing incoming : List String) : List String :=
  ((existing ++ incoming).foldl (fun m c => mapSet m (cookieName c) c) []).map (·.2)

/-! ## A minimal JSON value model and parser

`response.json()` parses the body text; the fragments appearing in this
development are objects/arrays of strings, integers, booleans and null
without escape sequences, which is all this parser accepts (floating
point literals and string escapes are rejected rather than modelled). -/

inductive Json where
  | null
  | bool (b : Bool)
  | num (n : Int)
  | str (s : String)
  | arr (elems : List Json)
  | obj (fields : List (String × Json))
deriving Repr

def jsonWsChar (c : Char) : Bool := c == ' ' || c == '\n' || c == '\t' || c == '\r'

def skipWs (cs : List Char) : List Char := cs.dropWhile jsonWsChar

def lbraceChar : Char := Char.ofNat 123

def rbraceChar : Char := Char.ofNat 125

/-- Body of a JSON string after the opening quote: plain characters up to
the closing quote (escapes are not modelled). -/
def parseStrBody : List Char → Option (String × List Char)
  | [] => none
  | c :: cs =>
    if c == dquoteChar then some ("", cs)
    else if c == '\\' then none
    else (parseStrBody cs).map (fun p => (String.mk (c :: p.1.toList), p.2))

/-- A JSON integer literal (fraction/exponent forms rejected). -/
def parseNum (cs : List Char) : Option (Int × List Char) :=
  let negAndRest : Bool × List Char :=
    match cs with
    | '-' :: rest => (true, rest)
    | _ => (false, cs)
  let digits := negAndRest.2.takeWhile Char.isDigit
  let rest := negAndRest.2.drop digits.length
  if digits.isEmpty then none
  else
    match rest with
    | '.' :: _ => none
    | 'e' :: _ => none
    | 'E' :: _ => none
    | _ =>
      let n : Nat := digits.foldl (fun a c => a * 10 + (c.toNat - Char.toNat '0')) 0
      some (if negAndRest.1 then -(n : Int) else (n : Int), rest)

mutual

def jparse : Nat → List Char → Option (Json × List Char)
  | 0, _ => none
  | fuel + 1, cs =>
    match skipWs cs with
    | 'n' :: 'u' :: 'l' :: 'l' :: rest => some (.null, rest)
    | 't' :: 'r' :: 'u' :: 'e' :: rest => some (.bool true, rest)
    | 'f' :: 'a' :: 'l' :: 's' :: 'e' :: rest => some (.bool false, rest)
    | c :: rest =>
      if c == dquoteChar then (parseStrBody rest).map (fun p => (.str p.1, p.2))
      else if c == '[' then
        match skipWs rest with
        | ']' :: r2 => some (.arr [], r2)
        | r2 => (jparseElems fuel r2).map (fun p => (.arr p.1, p.2))
      else if c == lbraceChar then
        match skipWs rest with
        | d :: r3 =>
          if d == rbraceChar then some (.obj [], r3)
          else (jparseFields fuel (d :: r3)).map (fun p => (.obj p.1, p.2))
        | [] => none
      else (parseNum (c :: rest)).map (fun p => (.num p.1, p.2))
    | [] => none

def jparseElems : Nat → List Char → Option (List Json × List Char)
  | 0, _ => none
  | fuel + 1, cs =>
    match jparse fuel cs with
    | none => none
    | some (v, rest) =>
      match skipWs rest with
      | ',' :: r2 => (jparseElems fuel r2).map (fun p => (v :: p.1, p.2))
      | ']' :: r2 => some ([v], r2)
      | _ => none

def jparseFields : Nat → List Char → Option (List (String × Json) × List Char)
  | 0, _ => none
  | fuel + 1, cs =>
    match skipWs cs with
    | c :: rest =>
      if c == dquoteChar then
        match parseStrBody rest with
        | none => none
        | some (k, r1) =>
          match skipWs r1 with
          | ':' :: r2 =>
            match jparse fuel r2 with
            | none => none
            | some (v, r3) =>
              match skipWs r3 with
              | ',' :: r4 => (jparseFields fuel r4).map (fun p => ((k, v) :: p.1, p.2))
              | d :: r4 => if d == rbraceChar then some ([(k, v)], r4) else none
              | [] => none
          | _ => none
      else none
    | [] => none

end

/-- `JSON.parse`, restricted as described above; `none` models a thrown
`SyntaxError`. -/
def jsonParse (s : String) : Option Json :=
  match jparse (s.length + 1) s.toList with
  | some (v, rest) => if (skipWs rest).isEmpty then some v else none
  | none => none

/-- JavaScript property lookup on a parsed JSON object (duplicate keys in
the source text: `JSON.parse` keeps the last occurrence). -/
def Json.getField : Json → String → Option Json
  | .obj fs, k => (fs.reverse.find? (fun p => p.1 == k)).map (·.2)
  | _, _ => none

/-! ## Configuration, HTTP model, client state

`HybrisConfig` models the configuration after the constructor
(lines 95–103) has applied its defaults, so all fields are present.
A `fetch` `Response` is reduced to the fields the client reads: status,
the `location` and `content-type` headers, the `Set-Cookie` headers and
the body text.  The network is an oracle indexed by the number of
`fetch` calls made so far. -/

structure HybrisConfig where
  baseUrl : String
  username : String
  password : String
  baseSiteId : String := "electronics"
  catalogId : String := "electronicsProductCatalog"
  catalogVersion : String := "Online"
  hacPath : String := "/hac"
deriving Repr

/-- `HybrisClient.REQUEST_TIMEOUT_MS` (line 90). -/
def REQUEST_TIMEOUT_MS : Nat := 30000

/-- The `hacPrefix` getter (lines 105–107): `this.config.hacPath || '/hac'`
(the empty string is falsy in JavaScript). -/
def hacPrefix (cfg : HybrisConfig) : String :=
  if cfg.hacPath == "" then "/hac" else cfg.hacPath

structure HttpResponse where
  status : Nat
  location : Option String := none
  contentType : Option String := none
  setCookie : List String := []
  body : String := ""
deriving Repr

/-- `Response.ok`: status in the inclusive range 200–299. -/
def HttpResponse.isOk (r : HttpResponse) : Bool :=
  decide (200 ≤ r.status) && decide (r.status < 300)

/-- One scripted behaviour of the network for one `fetch` call:
a response, an abort by the timeout timer, or another network error. -/
inductive NetEvent where
  | reply (r : HttpResponse)
  | timeoutEvt
  | netError (msg : String)
deriving Repr

/-- The observable content of one outgoing `fetch` call. -/
structure HttpRequest where
  url : String
  method : String := "GET"
  headers : List (String × String) := []
  body : Option (List (String × String)) := none
  redirectManual : Bool := false
deriving Repr

/-- `HacSession` (lines 84–87). -/
structure HacSession where
  cookies : List String
  csrfToken : String
deriving Repr, DecidableEq

/-- The mutable state of a `HybrisClient` (`hacSession`, line 93) together
with the network model: the oracle, the count of `fetch` calls made, and
a log of the requests sent. -/
structure ClientState where
  hacSession : Option HacSession
  oracle : Nat → NetEvent
  calls : Nat
  log : List HttpRequest

/-- Computations of the client: explicit state threading with
JavaScript-style exceptions — a thrown error carries the state as
mutated so far. -/
def ClientM (α : Type) : Type := ClientState → Except String α × ClientState

/-- `fetchWithTimeout` (lines 109–125): performs one network call; an
abort by the timeout timer becomes the `Request timeout after …ms: url`
error, any other rejection propagates as-is. -/
def fetchWithTimeout (req : HttpRequest) : ClientM HttpResponse := fun s =>
  let s' : ClientState :=
    { s with calls := s.calls + 1, log := s.log ++ [req] }
  match s.oracle s.calls with
  | .reply r => (.ok r, s')
  | .timeoutEvt =>
      (.error ("Request timeout after " ++ toString REQUEST_TIMEOUT_MS ++ "ms: " ++ req.url), s')
  | .netError msg => (.error msg, s')

/-- `contentType?.includes(sub)` on an optional header value. -/
def optIncludes (o : Option String) (sub : String) : Bool :=
  match o with
  | some s => strIncludes s sub
  | none => false

/-! ## Basic-auth headers (`getAuthHeaders`, lines 136–143) -/

def base64Alphabet : List Char :=
  "ABCDEFGHIJKLMNOPQRSTUVWXYZabcdefghijklmnopqrstuvwxyz0123456789+/".toList

def base64Digit (n : Nat) : Char := base64Alphabet.getD n '='

/-- One group of up to three bytes of a base64 encoding. -/
def base64Chunk : List Nat → List Char
  | [b0] => [base64Digit (b0 / 4), base64Digit (b0 % 4 * 16), '=', '=']
  | [b0, b1] => [base64Digit (b0 / 4), base64Digit (b0 % 4 * 16 + b1 / 16),
                 base64Digit (b1 % 16 * 4), '=']
  | [b0, b1, b2] => [base64Digit (b0 / 4), base64Digit (b0 % 4 * 16 + b1 / 16),
                     base64Digit (b1 % 16 * 4 + b2 / 64), base64Digit (b2 % 64)]
  | _ => []

def chunksOf3 : List Nat → List (List Nat)
  | [] => []
  | [b0] => [[b0]]
  | [b0, b1] => [[b0, b1]]
  | b0 :: b1 :: b2 :: rest => [b0, b1, b2] :: chunksOf3 rest

/-- `Buffer.from(s).toString('base64')`. -/
def base64Encode (s : String) : String :=
  String.mk ((chunksOf3 (s.toUTF8.toList.map (fun b => b.toNat))).map base64Chunk).flatten

/-- `getAuthHeaders` (lines 136–143). -/
def getAuthHeaders (cfg : HybrisConfig) : List (String × String) :=
  [("Authorization", "Basic " ++ base64Encode (cfg.username ++ ":" ++ cfg.password)),
   ("Content-Type", "application/json"),
   ("Accept", "application/json")]

/-- JavaScript object spread `\x7b...base, ...extra\x7d` on string-keyed
records: base keys keep their position (values overridden by `extra`),
new keys of `extra` are appended. -/
def spreadHeaders (base extra : List (String × String)) : List (String × String) :=
  base.map (fun p =>
    match extra.find? (fun q => q.1 == p.1) with
    | some q => q
    | none => p)
  ++ extra.filter (fun q => !(base.any (fun p => p.1 == q.1)))

/-- Caller-supplied request options (`RequestInit` as used here: method,
headers, and an optional `URLSearchParams` body modelled as an
association list in insertion order). -/
structure ReqOptions where
  method : String := "GET"
  headers : List (String × String) := []
  body : Option (List (String × String)) := none
deriving Repr

/-- `URLSearchParams.prototype.set`: overwrite the first entry with the
given name, drop any further entries with it, or append. -/
def setParam (ps : List (String × String)) (k v : String) : List (String × String) :=
  match ps.findIdx? (fun p => p.1 == k) with
  | some i => ps.take i ++ [(k, v)] ++ (ps.drop (i + 1)).filter (fun p => p.1 ≠ k)
  | none => ps ++ [(k, v)]

/-- The decoded value a pipeline call resolves with: a parsed JSON body
or the raw body text. -/
inductive HacResult where
  | json (v : Json)
  | text (t : String)
deriving Repr

/-! ## The basic-auth pipeline (`request`, lines 145–177) -/

def request (cfg : HybrisConfig) (endpoint : String) (opts : ReqOptions) :
    ClientM HacResult := fun s =>
  let url := cfg.baseUrl ++ endpoint
  match fetchWithTimeout
      { url := url, method := opts.method,
        headers := spreadHeaders (getAuthHeaders cfg) opts.headers,
        body := opts.body, redirectManual := false } s with
  | (.error e, s1) => (.error e, s1)
  | (.ok resp, s1) =>
    if !resp.isOk then
      (.error ("Hybris API error (" ++ toString resp.status ++ "): " ++ resp.body), s1)
    else if optIncludes resp.contentType "application/json" then
      match jsonParse resp.body with
      | some v => (.ok (.json v), s1)
      | none => (.error "Invalid JSON in response body", s1)
    else if optIncludes resp.contentType "text/html" && strIncludes resp.body "<html" then
      (.error ("Unexpected HTML response (possible auth failure): "
               ++ strTake resp.body 200 ++ "..."), s1)
    else (.ok (.text resp.body), s1)

/-! ## The session authenticator (`ensureHacSession`, lines 211–300) -/

/-- `extractCookies` (lines 196–209): the `name=value` part of each
`Set-Cookie` header, skipping empty parts (JavaScript truthiness). -/
def extractCookies (r : HttpResponse) : List String :=
  (r.setCookie.map cookieNameValue).filter (fun c => c ≠ "")

/-- `cookies.join('; ')`. -/
def joinCookies (cookies : List String) : String := String.intercalate "; " cookies

/-- Lines 242–300 of `ensureHacSession`: scrape the pre-auth CSRF token
from the login page, POST the credentials, follow the redirect to the
authenticated landing page, scrape the post-auth token, cache the
Session.  `loginPageResponse` and `cookies1` are the response and merged
cookie set produced by step 1. -/
def hacLoginFinish (cfg : HybrisConfig) (loginPageResponse : HttpResponse)
    (cookies1 : List String) : ClientM HacSession := fun s2 =>
  -- Step 2: scrape the pre-auth CSRF token and POST the credentials
  match extractCsrfToken loginPageResponse.body with
  | none => (.error "Failed to extract CSRF token from HAC login page", s2)
  | some csrfToken =>
    let loginUrl := cfg.baseUrl ++ hacPrefix cfg ++ "/j_spring_security_check"
    let loginBody := [("j_username", cfg.username), ("j_password", cfg.password),
                      ("_csrf", csrfToken)]
    match fetchWithTimeout
        { url := loginUrl, method := "POST",
          headers := [("Content-Type", "application/x-www-form-urlencoded"),
                      ("Cookie", joinCookies cookies1)],
          body := some loginBody, redirectManual := true } s2 with
    | (.error e, s3) => (.error e, s3)
    | (.ok loginResponse, s3) =>
      let cookies2 := mergeCookies cookies1 (extractCookies loginResponse)
      -- login must redirect, with a Location free of 'error'
      if loginResponse.status ≠ 302 ∨ loginResponse.location = none
          ∨ optIncludes loginResponse.location "error" = true then
        (.error "HAC login failed - check credentials", s3)
      else
        let loc := loginResponse.location.getD ""
        -- Step 3: GET the authenticated landing page, scrape the new token
        let homeUrl := if strStartsWith loc "http" then loc else cfg.baseUrl ++ loc
        match fetchWithTimeout
            { url := homeUrl, method := "GET",
              headers := [("Cookie", joinCookies cookies2)],
              body := none, redirectManual := true } s3 with
        | (.error e, s4) => (.error e, s4)
        | (.ok homeResponse, s4) =>
          let cookies3 := mergeCookies cookies2 (extractCookies homeResponse)
          match extractCsrfToken homeResponse.body with
          | none => (.error "Failed to extract CSRF token after HAC login", s4)
          | some newCsrfToken =>
            let sess : HacSession := { cookies := cookies3, csrfToken := newCsrfToken }
            (.ok sess, { s4 with hacSession := some sess })

def ensureHacSession (cfg : HybrisConfig) : ClientM HacSession := fun s =>
  match s.hacSession with
  | some sess => (.ok sess, s)
  | none =>
    -- Step 1: GET the HAC root; follow one redirect to login.jsp if present
    let loginPageUrl := cfg.baseUrl ++ hacPrefix cfg ++ "/"
    match fetchWithTimeout
        { url := loginPageUrl, method := "GET", headers := [],
          body := none, redirectManual := true } s with
    | (.error e, s1) => (.error e, s1)
    | (.ok resp0, s1) =>
      let cookies0 := extractCookies resp0
      let afterRedirect : Except String (HttpResponse × List String) × ClientState :=
        if resp0.status == 302 then
          match resp0.location with
          | some loc =>
            let url2 := if strStartsWith loc "http" then loc else cfg.baseUrl ++ loc
            match fetchWithTimeout
                { url := url2, method := "GET",
                  headers := [("Cookie", joinCookies cookies0)],
                  body := none, redirectManual := true } s1 with
            | (.error e, s2) => (.error e, s2)
            | (.ok resp1, s2) =>
              (.ok (resp1, mergeCookies cookies0 (extractCookies resp1)), s2)
          | none => (.ok (resp0, cookies0), s1)
        else (.ok (resp0, cookies0), s1)
      match afterRedirect with
      | (.error e, s2) => (.error e, s2)
      | (.ok (loginPageResponse, cookies1), s2) =>
        hacLoginFinish cfg loginPageResponse cookies1 s2

/-! ## The session-aware pipeline (`hacRequest`, lines 302–356)

The source threads an up-counting `retryCount` (default 0), throws the
session-expired error when `retryCount >= 1` and recurses with
`retryCount + 1`.  We recurse structurally on the equivalent down-counter
`retriesLeft = 1 - retryCount` (`0` exactly when `retryCount >= 1`;
the recursive call maps `retryCount + 1` to `retriesLeft - 1`), which
makes the one-retry bound structurally evident and keeps the definition
kernel-reducible. -/

/-- One pass of `hacRequest`: session acquisition, request decoration,
send, response classification.  `onLoginRedirect` is what lines 332–336 do
in the `302 → login` branch: throw the session-expired error when the
retry budget is exhausted, otherwise clear the session and recurse. -/
def hacRequestBody (cfg : HybrisConfig) (endpoint : String) (opts : ReqOptions)
    (onLoginRedirect : ClientState → Except String HacResult × ClientState) :
    ClientM HacResult := fun s =>
  match ensureHacSession cfg s with
  | (.error e, s1) => (.error e, s1)
  | (.ok session, s1) =>
    let url := cfg.baseUrl ++ endpoint
    let headers := spreadHeaders
      [("Cookie", joinCookies session.cookies), ("X-CSRF-TOKEN", session.csrfToken)]
      opts.headers
    -- CSRF token injected into a POSTed form body
    let body := if opts.method == "POST" then
        opts.body.map (fun ps => setParam ps "_csrf" session.csrfToken)
      else opts.body
    match fetchWithTimeout
        { url := url, method := opts.method, headers := headers,
          body := body, redirectManual := true } s1 with
    | (.error e, s2) => (.error e, s2)
    | (.ok resp, s2) =>
      if resp.status == 302 && optIncludes resp.location "login" then
        -- redirected to login: the session expired
        onLoginRedirect s2
      else if !resp.isOk && resp.status ≠ 302 then
        (.error ("HAC API error (" ++ toString resp.status ++ "): " ++ resp.body), s2)
      else if optIncludes resp.contentType "application/json" then
        match jsonParse resp.body with
        | some v => (.ok (.json v), s2)
        | none => (.error "Invalid JSON in response body", s2)
      else if optIncludes resp.contentType "text/html" && strIncludes resp.body "<html" then
        (.error ("Unexpected HTML response (possible auth failure): "
                 ++ strTake resp.body 200 ++ "..."), s2)
      else (.ok (.text resp.body), s2)

def hacRequestGo (cfg : HybrisConfig) (endpoint : String) (opts : ReqOptions) :
    Nat → ClientM HacResult
  | 0 => hacRequestBody cfg endpoint opts
      (fun s2 => (.error "HAC session expired and re-authentication failed", s2))
  | n + 1 => hacRequestBody cfg endpoint opts
      (fun s2 => hacRequestGo cfg endpoint opts n { s2 with hacSession := none })

/-- `hacRequest` (lines 302–356) at attempt counter `retryCount`. -/
def hacRequest (cfg : HybrisConfig) (endpoint : String) (opts : ReqOptions)
    (retryCount : Nat) : ClientM HacResult :=
  hacRequestGo cfg endpoint opts (1 - retryCount)

/-! ## `searchProducts` (lines 360–371) and `healthCheck` (lines 806–823)

The query-string percent-encoding of `URLSearchParams`/`encodeURIComponent`
is not modelled (no claim observes the URL text beyond identity). -/

def searchProducts (cfg : HybrisConfig) (query : String)
    (pageSize currentPage : Nat) : ClientM HacResult :=
  request cfg
    ("/rest/v2/" ++ cfg.baseSiteId ++ "/products/search?query=" ++ query
      ++ "&pageSize=" ++ toString pageSize
      ++ "&currentPage=" ++ toString currentPage
      ++ "&fields=products(code,name,description,price,stock,categories,images),pagination")
    { method := "GET", headers := [], body := none }

/-- The `details` record of a health check result. -/
inductive HealthDetails where
  | okInfo (baseSiteId : String) (totalProducts : Option Json)
  | errInfo (msg : String)
deriving Repr

structure HealthStatus where
  healthy : Bool
  details : HealthDetails
deriving Repr

/-- The message of the `TypeError` V8 raises for a property access on
`null`, as thrown by `result.pagination` when the parsed body is the JSON
literal `null`. -/
def nullPaginationMsg : String :=
  "Cannot read properties of null (reading " ++ String.mk [squoteChar]
    ++ "pagination" ++ String.mk [squoteChar] ++ ")"

/-- `result.pagination?.totalResults ?? 'unknown'`: the plain access
`result.pagination` throws a `TypeError` when `result` is `null`;
otherwise `none` models `'unknown'` (fires when the result is a string or
other non-object, the field chain is absent, or the value is `null` —
optional chaining and `??` swallow those). -/
def totalResultsOf (r : HacResult) : Except String (Option Json) :=
  match r with
  | .json .null => .error nullPaginationMsg
  | .json v =>
    .ok (match (v.getField "pagination").bind (fun p => p.getField "totalResults") with
      | some .null => none
      | o => o)
  | .text _ => .ok none

/-- `healthCheck` (lines 806–823): a try/catch around `searchProducts`
and the construction of the success record, whose `totalProducts` field
access can itself throw into the same catch. -/
def healthCheck (cfg : HybrisConfig) : ClientM HealthStatus := fun s =>
  match searchProducts cfg "" 1 0 s with
  | (.ok result, s1) =>
    match totalResultsOf result with
    | .ok tp =>
      (.ok { healthy := true, details := .okInfo cfg.baseSiteId tp }, s1)
    | .error e =>
      (.ok { healthy := false, details := .errInfo e }, s1)
  | (.error e, s1) =>
    (.ok { healthy := false, details := .errInfo e }, s1)
/-! ## Lemmas about `mergeCookies` -/

def cookieNames (l : List String) : List String := l.map cookieName

def buildStep (m : List (String × String)) (c : String) : List (String × String) :=
  mapSet m (cookieName c) c

theorem mergeCookies_eq_buildMap (A B : List String) :
    mergeCookies A B = ((A ++ B).foldl buildStep []).map (·.2) := rfl

theorem mapSet_map_fst (m : List (String × String)) (k v : String) :
    (mapSet m k v).map (·.1)
      = if m.any (fun p => p.1 == k) then m.map (·.1) else m.map (·.1) ++ [k] := by
  unfold mapSet
  split
  · simp only [List.map_map]
    apply List.map_congr_left
    intro p _
    by_cases h : p.1 = k <;> simp [h]
  · simp

theorem mem_mapSet_map_fst (m : List (String × String)) (k v n : String) :
    n ∈ (mapSet m k v).map (·.1) ↔ n ∈ m.map (·.1) ∨ n = k := by
  rw [mapSet_map_fst]
  split
  · rename_i h
    simp only [List.any_eq_true, beq_iff_eq] at h
    obtain ⟨p, hp, hpk⟩ := h
    constructor
    · exact fun hn => Or.inl hn
    · rintro (hn | rfl)
      · exact hn
      · exact List.mem_map.mpr ⟨p, hp, hpk⟩
  · simp

theorem nodup_mapSet_map_fst (m : List (String × String)) (k v : String)
    (h : (m.map (·.1)).Nodup) : ((mapSet m k v).map (·.1)).Nodup := by
  rw [mapSet_map_fst]
  split
  · exact h
  · rename_i hany
    simp only [List.any_eq_true, beq_iff_eq] at hany
    push_neg at hany
    refine List.Nodup.append h (List.nodup_singleton k) ?_
    intro x hx hk
    simp only [List.mem_singleton] at hk
    subst hk
    obtain ⟨p, hp, hpk⟩ := List.mem_map.mp hx
    exact hany p hp hpk

theorem mem_mapSet_self (m : List (String × String)) (k v : String) :
    (k, v) ∈ mapSet m k v := by
  unfold mapSet
  split
  · rename_i h
    simp only [List.any_eq_true, beq_iff_eq] at h
    obtain ⟨p, hp, hpk⟩ := h
    refine List.mem_map.mpr ⟨p, hp, ?_⟩
    simp [hpk]
  · simp

theorem mem_mapSet_of_ne (m : List (String × String)) (k v : String)
    (p : String × String) (hp : p ∈ m) (hne : p.1 ≠ k) : p ∈ mapSet m k v := by
  unfold mapSet
  split
  · refine List.mem_map.mpr ⟨p, hp, ?_⟩
    simp [hne]
  · exact List.mem_append_left _ hp

theorem foldl_buildStep_mem (l : List String) (m : List (String × String))
    (p : String × String) (hp : p ∈ m) (hl : p.1 ∉ cookieNames l) :
    p ∈ l.foldl buildStep m := by
  induction l generalizing m with
  | nil => exact hp
  | cons c l ih =>
    simp only [cookieNames, List.map_cons, List.mem_cons, not_or] at hl
    exact ih _ (mem_mapSet_of_ne _ _ _ p hp hl.1) (by simpa [cookieNames] using hl.2)

theorem foldl_buildStep_mem_keys (l : List String) (m : List (String × String)) (n : String) :
    n ∈ (l.foldl buildStep m).map (·.1) ↔ n ∈ m.map (·.1) ∨ n ∈ cookieNames l := by
  induction l generalizing m with
  | nil => simp [cookieNames]
  | cons c l ih =>
    simp only [List.foldl_cons, ih, buildStep, mem_mapSet_map_fst, cookieNames,
      List.map_cons, List.mem_cons]
    tauto

theorem foldl_buildStep_nodup_keys (l : List String) (m : List (String × String))
    (h : (m.map (·.1)).Nodup) : ((l.foldl buildStep m).map (·.1)).Nodup := by
  induction l generalizing m with
  | nil => exact h
  | cons c l ih => exact ih _ (nodup_mapSet_map_fst _ _ _ h)

theorem foldl_buildStep_fst_name (l : List String) (m : List (String × String))
    (h : ∀ p ∈ m, p.1 = cookieName p.2) :
    ∀ p ∈ l.foldl buildStep m, p.1 = cookieName p.2 := by
  induction l generalizing m with
  | nil => exact h
  | cons c l ih =>
    refine ih _ ?_
    intro p hp
    unfold buildStep mapSet at hp
    split at hp
    · obtain ⟨q, hq, hqe⟩ := List.mem_map.mp hp
      by_cases hqk : q.1 = cookieName c
      · simp only [hqk, beq_self_eq_true, if_true] at hqe
        subst hqe; rfl
      · simp only [beq_iff_eq, hqk, if_false] at hqe
        subst hqe; exact h q hq
    · rcases List.mem_append.mp hp with hq | hq
      · exact h p hq
      · simp only [List.mem_singleton] at hq
        subst hq; rfl

theorem mem_mergeCookies_of_last (A B : List String) (l₁ l₂ : List String) (c : String)
    (hsplit : A ++ B = l₁ ++ c :: l₂) (hlast : cookieName c ∉ cookieNames l₂) :
    c ∈ mergeCookies A B := by
  rw [mergeCookies_eq_buildMap, hsplit, List.foldl_append]
  have h1 : (cookieName c, c) ∈ (c :: l₂).foldl buildStep (l₁.foldl buildStep []) := by
    simp only [List.foldl_cons]
    exact foldl_buildStep_mem l₂ _ _ (mem_mapSet_self _ _ _) hlast
  exact List.mem_map.mpr ⟨_, h1, rfl⟩

theorem keys_unique_ext (m : List (String × String)) (h : (m.map (·.1)).Nodup)
    (p q : String × String) (hp : p ∈ m) (hq : q ∈ m) (hk : p.1 = q.1) : p = q := by
  induction m with
  | nil => cases hp
  | cons a m ih =>
    simp only [List.map_cons, List.nodup_cons] at h
    rcases List.mem_cons.mp hp with rfl | hp' <;> rcases List.mem_cons.mp hq with rfl | hq'
    · rfl
    · exact absurd (by rw [hk]; exact List.mem_map.mpr ⟨q, hq', rfl⟩) h.1
    · exact absurd (by rw [← hk]; exact List.mem_map.mpr ⟨p, hp', rfl⟩) h.1
    · exact ih h.2 hp' hq'

theorem mapSet_stable (m : List (String × String)) (k v : String)
    (hmem : (k, v) ∈ m) (h : (m.map (·.1)).Nodup) : mapSet m k v = m := by
  unfold mapSet
  have hany : m.any (fun p => p.1 == k) = true := by
    simp only [List.any_eq_true, beq_iff_eq]
    exact ⟨(k, v), hmem, rfl⟩
  rw [if_pos hany]
  have hme : List.map (fun p => if (p.1 == k) = true then (k, v) else p) m = List.map id m := by
    apply List.map_congr_left
    intro p hp
    by_cases hpk : p.1 = k
    · have hpe : p = (k, v) := keys_unique_ext m h p (k, v) hp hmem hpk
      simp [hpe]
    · simp [hpk]
  simpa using hme

theorem foldl_buildStep_stable (l : List String) (m : List (String × String))
    (hmem : ∀ c ∈ l, (cookieName c, c) ∈ m) (h : (m.map (·.1)).Nodup) :
    l.foldl buildStep m = m := by
  induction l with
  | nil => rfl
  | cons c l ih =>
    simp only [List.foldl_cons, buildStep]
    rw [mapSet_stable m _ _ (hmem c (List.mem_cons_self c l)) h]
    exact ih (fun d hd => hmem d (List.mem_cons_of_mem c hd))

theorem foldl_buildStep_fresh (l : List String) (m : List (String × String))
    (hnd : (cookieNames l).Nodup)
    (hdisj : ∀ c ∈ l, cookieName c ∉ m.map (·.1)) :
    l.foldl buildStep m = m ++ l.map (fun c => (cookieName c, c)) := by
  induction l generalizing m with
  | nil => simp
  | cons c l ih =>
    simp only [cookieNames, List.map_cons, List.nodup_cons] at hnd
    have hstep : buildStep m c = m ++ [(cookieName c, c)] := by
      unfold buildStep mapSet
      rw [if_neg]
      simp only [List.any_eq_true, beq_iff_eq, not_exists, not_and]
      intro p hp hpk
      exact hdisj c (List.mem_cons_self c l) (List.mem_map.mpr ⟨p, hp, hpk⟩)
    simp only [List.foldl_cons, hstep]
    have hdisj2 : ∀ d ∈ l, cookieName d ∉ (m ++ [(cookieName c, c)]).map (·.1) := by
      intro d hd
      simp only [List.map_append, List.mem_append, List.map_cons, List.map_nil,
        List.mem_singleton, not_or]
      refine ⟨hdisj d (List.mem_cons_of_mem c hd), ?_⟩
      intro hdc
      exact hnd.1 (hdc ▸ List.mem_map.mpr ⟨d, hd, rfl⟩)
    rw [ih _ (by simpa [cookieNames] using hnd.2) hdisj2]
    simp

theorem mergeCookies_self (A : List String) (h : (cookieNames A).Nodup) :
    mergeCookies A A = A := by
  rw [mergeCookies_eq_buildMap, List.foldl_append]
  have h1 : A.foldl buildStep [] = A.map (fun c => (cookieName c, c)) := by
    simpa using foldl_buildStep_fresh A [] h (by simp)
  have hkeys : ((A.map (fun c => (cookieName c, c))).map (·.1)).Nodup := by
    simpa [List.map_map, Function.comp, cookieNames] using h
  rw [h1, foldl_buildStep_stable A _ (fun c hc => List.mem_map.mpr ⟨c, hc, rfl⟩) hkeys]
  have hpt : ∀ c ∈ A, ((fun x => x.2) ∘ fun c => (cookieName c, c)) c = id c := fun c _ => rfl
  rw [List.map_map, List.map_congr_left hpt, List.map_id]

/-! ## Lemmas about the CSRF scraper -/

/-- Case-insensitive substring occurrence. -/
def ciHasSub (sub : List Char) : List Char → Bool
  | [] => sub.isEmpty
  | c :: cs => ciLit sub (c :: cs) || ciHasSub sub cs

theorem matchItems_nil_eq (cs : List Char) : matchItems [] cs = some none := rfl

theorem matchItems_lit_eq (s : String) (rest : List RE) (cs : List Char) :
    matchItems (RE.lit s :: rest) cs
      = if ciLit s.toList cs then matchItems rest (cs.drop s.toList.length) else none := rfl

theorem matchItems_quote_nil_eq (rest : List RE) :
    matchItems (RE.quoteCls :: rest) [] = none := rfl

theorem matchItems_quote_cons_eq (rest : List RE) (c : Char) (cs' : List Char) :
    matchItems (RE.quoteCls :: rest) (c :: cs')
      = if isQuoteChar c then matchItems rest cs' else none := rfl

theorem matchItems_star_eq (rest : List RE) (cs : List Char) :
    matchItems (RE.starNonGt :: rest) cs
      = (List.range ((cs.takeWhile (· ≠ '>')).length + 1)).reverse.findSome?
          (fun k => matchItems rest (cs.drop k)) := rfl

theorem matchItems_plus_eq (rest : List RE) (cs : List Char) :
    matchItems (RE.plusNonQuoteCap :: rest) cs
      = (List.range' 1 ((cs.takeWhile (fun c => !isQuoteChar c)).length)).reverse.findSome?
          (fun k => (matchItems rest (cs.drop k)).map (fun _ => some (cs.take k))) := rfl

theorem ciHasSub_of_ciLit (sub cs : List Char) (h : ciLit sub cs = true) :
    ciHasSub sub cs = true := by
  cases cs with
  | nil =>
    cases sub with
    | nil => rfl
    | cons a as => simp [ciLit] at h
  | cons c cs' => simp [ciHasSub, h]

theorem ciHasSub_drop (sub : List Char) (cs : List Char) (n : Nat)
    (h : ciHasSub sub (cs.drop n) = true) : ciHasSub sub cs = true := by
  induction cs generalizing n with
  | nil => simpa using h
  | cons c cs' ih =>
    cases n with
    | zero => exact h
    | succ k =>
      simp only [List.drop_succ_cons] at h
      simp [ciHasSub, ih k h]

theorem findSome?_ne_none {α β : Type} {f : α → Option β} {l : List α}
    (h : l.findSome? f ≠ none) : ∃ a ∈ l, f a ≠ none := by
  induction l with
  | nil => simp [List.findSome?] at h
  | cons a l ih =>
    rw [List.findSome?_cons] at h
    cases hfa : f a with
    | some b => exact ⟨a, List.mem_cons_self a l, by simp [hfa]⟩
    | none =>
      rw [hfa] at h
      obtain ⟨x, hx, hfx⟩ := ih h
      exact ⟨x, List.mem_cons_of_mem a hx, hfx⟩

theorem matchItems_lit_occurs (t : String) (its : List RE) :
    ∀ cs : List Char, matchItems its cs ≠ none → RE.lit t ∈ its →
      ciHasSub t.toList cs = true := by
  induction its with
  | nil => intro cs _ hmem; cases hmem
  | cons it rest ih =>
    intro cs h hmem
    cases it with
    | lit s =>
      rw [matchItems_lit_eq] at h
      by_cases hc : ciLit s.toList cs = true
      · rw [if_pos hc] at h
        rcases List.mem_cons.mp hmem with heq | hmem'
        · cases heq
          exact ciHasSub_of_ciLit _ _ hc
        · exact ciHasSub_drop _ _ _ (ih _ h hmem')
      · rw [if_neg hc] at h
        exact absurd rfl h
    | quoteCls =>
      have hmem' : RE.lit t ∈ rest := by
        rcases List.mem_cons.mp hmem with heq | hmem'
        · cases heq
        · exact hmem'
      cases cs with
      | nil =>
        rw [matchItems_quote_nil_eq] at h
        exact absurd rfl h
      | cons c cs' =>
        rw [matchItems_quote_cons_eq] at h
        by_cases hq : isQuoteChar c = true
        · rw [if_pos hq] at h
          exact ciHasSub_drop _ (c :: cs') 1 (ih _ h hmem')
        · rw [if_neg hq] at h
          exact absurd rfl h
    | starNonGt =>
      rw [matchItems_star_eq] at h
      have hmem' : RE.lit t ∈ rest := by
        rcases List.mem_cons.mp hmem with heq | hmem'
        · cases heq
        · exact hmem'
      obtain ⟨k, _, hk⟩ := findSome?_ne_none h
      exact ciHasSub_drop _ _ _ (ih _ hk hmem')
    | plusNonQuoteCap =>
      rw [matchItems_plus_eq] at h
      have hmem' : RE.lit t ∈ rest := by
        rcases List.mem_cons.mp hmem with heq | hmem'
        · cases heq
        · exact hmem'
      obtain ⟨k, _, hk⟩ := findSome?_ne_none h
      have hk' : matchItems rest (cs.drop k) ≠ none := by
        intro hnone
        exact hk (by simp [hnone])
      exact ciHasSub_drop _ _ _ (ih _ hk' hmem')

theorem searchCapture_lit_occurs (t : String) (its : List RE) :
    ∀ cs : List Char, searchCapture its cs ≠ none → RE.lit t ∈ its →
      ciHasSub t.toList cs = true := by
  intro cs
  induction cs with
  | nil =>
    intro h hmem
    rw [searchCapture] at h
    refine matchItems_lit_occurs t its [] ?_ hmem
    intro hnone
    exact h (by simp [hnone])
  | cons c cs' ih =>
    intro h hmem
    rw [searchCapture] at h
    cases hm : matchItems its (c :: cs') with
    | some g => exact matchItems_lit_occurs t its _ (by simp [hm]) hmem
    | none =>
      rw [hm] at h
      exact ciHasSub_drop _ (c :: cs') 1 (ih h hmem)

theorem extractCsrfToken_occurs (html : String)
    (h : extractCsrfToken html ≠ none) :
    ciHasSub "_csrf".toList html.toList = true := by
  unfold extractCsrfToken at h
  obtain ⟨p, hp, hfp⟩ := findSome?_ne_none h
  have hsc : searchCapture p html.toList ≠ none := by
    intro hnone
    refine hfp ?_
    rw [hnone]
    rfl
  have hlit : RE.lit "_csrf" ∈ p := by
    simp only [List.mem_cons, List.mem_singleton] at hp
    rcases hp with rfl | rfl | rfl | rfl | h0
    · decide
    · decide
    · decide
    · decide
    · cases h0
  exact searchCapture_lit_occurs _ _ _ hsc hlit

theorem extractCsrfToken_none_of_no_csrf (html : String)
    (h : ciHasSub "_csrf".toList html.toList = false) :
    extractCsrfToken html = none := by
  by_contra hne
  rw [extractCsrfToken_occurs html hne] at h
  cases h

/-! ## State lemmas for the session authenticator -/

theorem fetchWithTimeout_hacSession (req : HttpRequest) (s : ClientState) :
    ((fetchWithTimeout req s).2).hacSession = s.hacSession := by
  unfold fetchWithTimeout
  cases s.oracle s.calls <;> rfl

theorem fetch_snd_hacSession {req : HttpRequest} {s : ClientState}
    {x : Except String HttpResponse} {s' : ClientState}
    (h : fetchWithTimeout req s = (x, s')) : s'.hacSession = s.hacSession := by
  have h2 := fetchWithTimeout_hacSession req s
  rw [h] at h2
  exact h2

theorem hacLoginFinish_hacSession (cfg : HybrisConfig) (r : HttpResponse)
    (cookies1 : List String) (s : ClientState) :
    (hacLoginFinish cfg r cookies1 s).2.hacSession
      = match (hacLoginFinish cfg r cookies1 s).1 with
        | .ok sess => some sess
        | .error _ => s.hacSession := by
  unfold hacLoginFinish
  cases hcs : extractCsrfToken r.body with
  | none => simp
  | some csrfToken =>
    simp only
    rcases hf2 : fetchWithTimeout
        { url := cfg.baseUrl ++ hacPrefix cfg ++ "/j_spring_security_check",
          method := "POST",
          headers := [("Content-Type", "application/x-www-form-urlencoded"),
                      ("Cookie", joinCookies cookies1)],
          body := some [("j_username", cfg.username), ("j_password", cfg.password),
                        ("_csrf", csrfToken)],
          redirectManual := true } s with ⟨x2, s3⟩
    cases x2 with
    | error e => simpa using fetch_snd_hacSession hf2
    | ok loginResponse =>
      simp only
      split
      · simpa using fetch_snd_hacSession hf2
      · rcases hf3 : fetchWithTimeout
            { url := if strStartsWith (loginResponse.location.getD "") "http"
                     then loginResponse.location.getD ""
                     else cfg.baseUrl ++ loginResponse.location.getD "",
              method := "GET",
              headers := [("Cookie",
                joinCookies (mergeCookies cookies1 (extractCookies loginResponse)))],
              body := none, redirectManual := true } s3 with ⟨x3, s4⟩
        cases x3 with
        | error e =>
          have e1 := fetch_snd_hacSession hf2
          have e2 := fetch_snd_hacSession hf3
          simp only
          rw [e2, e1]
        | ok homeResponse =>
          cases hcs2 : extractCsrfToken homeResponse.body with
          | none =>
            have e1 := fetch_snd_hacSession hf2
            have e2 := fetch_snd_hacSession hf3
            simp only [hcs2]
            rw [e2, e1]
          | some newCsrfToken => simp [hcs2]

theorem ensureHacSession_hacSession (cfg : HybrisConfig) (s : ClientState) :
    (ensureHacSession cfg s).2.hacSession
      = match (ensureHacSession cfg s).1 with
        | .ok sess => some sess
        | .error _ => s.hacSession := by
  unfold ensureHacSession
  cases hs : s.hacSession with
  | some sess => simpa using hs
  | none =>
    dsimp only
    split
    · rename_i e s1 hf0
      simp only
      rw [fetch_snd_hacSession hf0, hs]
    · rename_i resp0 s1 hf0
      have hs1 : s1.hacSession = none := by rw [fetch_snd_hacSession hf0, hs]
      -- split the afterRedirect match
      split
      · rename_i e s2 hred
        have hs2 : s2.hacSession = none := by
          by_cases h302 : (resp0.status == 302) = true
          · rw [if_pos h302] at hred
            cases hloc : resp0.location with
            | none => rw [hloc] at hred; cases hred
            | some loc =>
              rw [hloc] at hred
              dsimp only at hred
              split at hred
              · rename_i hf1
                cases hred
                rw [fetch_snd_hacSession hf1, hs1]
              · rename_i hf1
                cases hred
          · rw [if_neg h302] at hred
            cases hred
        simp only
        exact hs2
      · rename_i loginPageResponse cookies1 s2 hred
        have hs2 : s2.hacSession = none := by
          by_cases h302 : (resp0.status == 302) = true
          · rw [if_pos h302] at hred
            cases hloc : resp0.location with
            | none =>
              rw [hloc] at hred
              cases hred
              exact hs1
            | some loc =>
              rw [hloc] at hred
              dsimp only at hred
              split at hred
              · rename_i hf1
                cases hred
              · rename_i hf1
                cases hred
                rw [fetch_snd_hacSession hf1, hs1]
          · rw [if_neg h302] at hred
            cases hred
            exact hs1
        rw [hacLoginFinish_hacSession cfg loginPageResponse cookies1 s2]
        cases (hacLoginFinish cfg loginPageResponse cookies1 s2).1 with
        | ok sess => simp
        | error e => simpa using hs2

/-! ## Scripted scenarios -/

/-- A scripted network: the n-th `fetch` call observes the n-th event
(a generic network error once the script is exhausted). -/
def scriptOracle (events : List NetEvent) : Nat → NetEvent :=
  fun n => events.getD n (.netError "no scripted response")

def initialState (sess : Option HacSession) (events : List NetEvent) : ClientState :=
  { hacSession := sess, oracle := scriptOracle events, calls := 0, log := [] }

def demoConfig : HybrisConfig :=
  { baseUrl := "https://localhost:9002", username := "admin", password := "nimda" }

def staleSession : HacSession := { cookies := ["JSESSIONID=old"], csrfToken := "oldtok" }

/-- The backend expresses session expiry as a redirect to the login page. -/
def loginRedirectReply : NetEvent := .reply { status := 302, location := some "/hac/login.jsp" }

/-- A login flow in which the HAC root serves the login form directly
(no initial redirect): login page, credential POST (302 to /hac/ with a
fresh JSESSIONID), authenticated landing page. -/
def freshLoginScript : List NetEvent :=
  [ .reply { status := 200, contentType := some "text/html",
             body := "<input name=\"_csrf\" value=\"tok1\">" },
    .reply { status := 302, location := some "/hac/", setCookie := ["JSESSIONID=def"] },
    .reply { status := 200, contentType := some "text/html",
             body := "<meta name=\"_csrf\" content=\"tok2\">" } ]

def jsonOkReply : NetEvent :=
  .reply { status := 200, contentType := some "application/json", body := "\x7b\"ok\":true\x7d" }

/-- Expired session, successful re-login, retried request succeeds. -/
def retrySuccessScript : List NetEvent := loginRedirectReply :: freshLoginScript ++ [jsonOkReply]

/-- Expired session, successful re-login, retried request is rejected again. -/
def retryExpiredScript : List NetEvent := loginRedirectReply :: freshLoginScript ++ [loginRedirectReply]

/-! ## C1 -/

/-- The decorated request that `hacRequest` sends: session cookie header,
CSRF header, and the token injected into a POSTed form body. -/
def decoratedReq (cfg : HybrisConfig) (endpoint : String) (opts : ReqOptions)
    (sess : HacSession) : HttpRequest :=
  { url := cfg.baseUrl ++ endpoint, method := opts.method,
    headers := spreadHeaders
      [("Cookie", joinCookies sess.cookies), ("X-CSRF-TOKEN", sess.csrfToken)]
      opts.headers,
    body := if opts.method == "POST" then
        opts.body.map (fun ps => setParam ps "_csrf" sess.csrfToken)
      else opts.body,
    redirectManual := true }

/-- C1: (i) a protected call entered with attempt counter 0 whose
response is a redirect with a login-marker Location invalidates the
cached session and becomes exactly the same call at counter 1 on the
post-invalidation state; (ii) at counter 1 the same signal fails with the
session-expired error without any further network call; and in the
concrete scenarios: with 5 scripted events (1 original request + 3
login-flow requests + 1 retried request) the retried call succeeds, the
whole call consumes exactly 5 network calls, the request log shows the
original endpoint, the three login steps, and the endpoint once more
(exactly one re-login, one retry), and the fresh session is cached; if
the retried request is again a login-redirect the call fails with the
session-expired error after the same 5 network calls — no further
retry. -/
theorem hacRequest_retries_exactly_once :
    (∀ (cfg : HybrisConfig) (endpoint : String) (opts : ReqOptions)
       (s : ClientState) (sess : HacSession) (r : HttpResponse),
       s.hacSession = some sess → s.oracle s.calls = .reply r →
       (r.status == 302 && optIncludes r.location "login") = true →
       ∃ s' : ClientState,
         hacRequest cfg endpoint opts 0 s = hacRequest cfg endpoint opts 1 s'
         ∧ s'.hacSession = none ∧ s'.calls = s.calls + 1)
  ∧ (∀ (cfg : HybrisConfig) (endpoint : String) (opts : ReqOptions)
       (s : ClientState) (sess : HacSession) (r : HttpResponse),
       s.hacSession = some sess → s.oracle s.calls = .reply r →
       (r.status == 302 && optIncludes r.location "login") = true →
       (hacRequest cfg endpoint opts 1 s).1
         = .error "HAC session expired and re-authentication failed"
       ∧ (hacRequest cfg endpoint opts 1 s).2.calls = s.calls + 1)
  ∧ (hacRequest demoConfig "/hac/x" { method := "GET" } 0
        (initialState (some staleSession) retrySuccessScript)).1
      = .ok (.json (.obj [("ok", .bool true)]))
  ∧ (hacRequest demoConfig "/hac/x" { method := "GET" } 0
        (initialState (some staleSession) retrySuccessScript)).2.calls = 5
  ∧ (hacRequest demoConfig "/hac/x" { method := "GET" } 0
        (initialState (some staleSession) retrySuccessScript)).2.log.map (fun r => r.url)
      = ["https://localhost:9002/hac/x", "https://localhost:9002/hac/",
         "https://localhost:9002/hac/j_spring_security_check",
         "https://localhost:9002/hac/", "https://localhost:9002/hac/x"]
  ∧ (hacRequest demoConfig "/hac/x" { method := "GET" } 0
        (initialState (some staleSession) retrySuccessScript)).2.hacSession
      = some { cookies := ["JSESSIONID=def"], csrfToken := "tok2" }
  ∧ (hacRequest demoConfig "/hac/x" { method := "GET" } 0
        (initialState (some staleSession) retryExpiredScript)).1
      = .error "HAC session expired and re-authentication failed"
  ∧ (hacRequest demoConfig "/hac/x" { method := "GET" } 0
        (initialState (some staleSession) retryExpiredScript)).2.calls = 5 := by
  refine ⟨?_, ?_, rfl, rfl, rfl, rfl, rfl, rfl⟩
  · intro cfg endpoint opts s sess r hs horc hcond
    refine ⟨{ hacSession := none, oracle := s.oracle, calls := s.calls + 1,
              log := s.log ++ [decoratedReq cfg endpoint opts sess] }, ?_, rfl, rfl⟩
    unfold hacRequest hacRequestGo hacRequestBody ensureHacSession fetchWithTimeout
    rw [hs]
    dsimp only
    rw [horc]
    dsimp only
    rw [hcond]
    simp only [if_true]
    rfl
  · intro cfg endpoint opts s sess r hs horc hcond
    unfold hacRequest hacRequestGo hacRequestBody ensureHacSession fetchWithTimeout
    rw [hs]
    dsimp only
    rw [horc]
    dsimp only
    rw [hcond]
    simp only [if_true]
    refine ⟨?_, ?_⟩ <;> first | rfl | trivial

/-- Witness for C1: the generic invalidate-and-retry step and the
counter-1 termination, each at a concrete expired-session call. -/
theorem hacRequest_retries_exactly_once_witness :
    (∃ s' : ClientState,
        hacRequest demoConfig "/hac/x" { method := "GET" } 0
            (initialState (some staleSession) retryExpiredScript)
          = hacRequest demoConfig "/hac/x" { method := "GET" } 1 s'
        ∧ s'.hacSession = none ∧ s'.calls = 1)
  ∧ (hacRequest demoConfig "/hac/x" { method := "GET" } 1
        (initialState (some staleSession) [loginRedirectReply])).1
      = .error "HAC session expired and re-authentication failed" :=
  ⟨hacRequest_retries_exactly_once.1 demoConfig "/hac/x" { method := "GET" }
      (initialState (some staleSession) retryExpiredScript) staleSession
      { status := 302, location := some "/hac/login.jsp" } rfl rfl rfl,
   (hacRequest_retries_exactly_once.2.1 demoConfig "/hac/x" { method := "GET" }
      (initialState (some staleSession) [loginRedirectReply]) staleSession
      { status := 302, location := some "/hac/login.jsp" } rfl rfl rfl).1⟩

/-! ## C2 -/

/-- The end-to-end login protocol scenario of the spec: the HAC root
redirects to /login.jsp setting JSESSIONID=abc, the login page carries
pre-auth token tok1 as a hidden input, the credential POST answers 302 to
/hac/ setting JSESSIONID=def, and the landing page carries post-auth token
tok2 as a meta tag. -/
def c2LoginScript : List NetEvent :=
  [ .reply { status := 302, location := some "/login.jsp",
             setCookie := ["JSESSIONID=abc; Path=/; HttpOnly"] },
    .reply { status := 200, contentType := some "text/html",
             body := "<input name=\"_csrf\" value=\"tok1\">" },
    .reply { status := 302, location := some "/hac/", setCookie := ["JSESSIONID=def"] },
    .reply { status := 200, contentType := some "text/html",
             body := "<meta name=\"_csrf\" content=\"tok2\">" } ]

/-- C2: the Session produced by the login protocol carries cookie
JSESSIONID=def (the later Set-Cookie wins the merge) and token tok2 (the
post-authentication token); that Session is cached; and the credential
POST (the third logged request) carried tok1 in its form body. -/
theorem ensureHacSession_end_to_end :
    (ensureHacSession demoConfig (initialState none c2LoginScript)).1
      = .ok { cookies := ["JSESSIONID=def"], csrfToken := "tok2" }
  ∧ (ensureHacSession demoConfig (initialState none c2LoginScript)).2.hacSession
      = some { cookies := ["JSESSIONID=def"], csrfToken := "tok2" }
  ∧ (ensureHacSession demoConfig (initialState none c2LoginScript)).2.log.map (fun r => r.body)
      = [none, none,
         some [("j_username", "admin"), ("j_password", "nimda"), ("_csrf", "tok1")],
         none] :=
  ⟨rfl, rfl, rfl⟩

/-! ## C5 -/

/-- A protected call whose response is a login-redirect, after which the
re-login fails at the credential POST (the backend answers 401). -/
def revokedScript : List NetEvent :=
  [ .reply { status := 302, location := some "/hac/login.jsp?error" },
    .reply { status := 200, contentType := some "text/html",
             body := "<input name=\"_csrf\" value=\"tok1\">" },
    .reply { status := 401, body := "Unauthorized" } ]

/-- C5: when the single transparent re-login fails at the credential
step, the protected call fails with the authentication error of that
login step, not with the generic session-expired error. -/
theorem hacRequest_relogin_failure_propagates :
    (hacRequest demoConfig "/hac/x" { method := "GET" } 0
        (initialState (some staleSession) revokedScript)).1
      = .error "HAC login failed - check credentials"
  ∧ (hacRequest demoConfig "/hac/x" { method := "GET" } 0
        (initialState (some staleSession) revokedScript)).1
      ≠ .error "HAC session expired and re-authentication failed"
  ∧ (hacRequest demoConfig "/hac/x" { method := "GET" } 0
        (initialState (some staleSession) revokedScript)).2.calls = 3 := by
  refine ⟨rfl, ?_, rfl⟩
  intro h
  rw [(rfl : (hacRequest demoConfig "/hac/x" { method := "GET" } 0
      (initialState (some staleSession) revokedScript)).1
        = .error "HAC login failed - check credentials")] at h
  injection h with hmsg
  exact absurd hmsg (by decide)

/-! ## C8 -/

/-- C8: a cached Session short-circuits `ensureHacSession` (the state —
including the `fetch` call counter and request log — is returned
untouched: no network I/O); consequently a second call made after a
successful first call returns the identical Session and again leaves the
state untouched. -/
theorem ensureHacSession_cached_no_io :
    (∀ (cfg : HybrisConfig) (s : ClientState) (sess : HacSession),
        s.hacSession = some sess → ensureHacSession cfg s = (.ok sess, s))
  ∧ (∀ (cfg : HybrisConfig) (s s' : ClientState) (sess : HacSession),
        ensureHacSession cfg s = (.ok sess, s') →
        ensureHacSession cfg s' = (.ok sess, s')) := by
  constructor
  · intro cfg s sess h
    unfold ensureHacSession
    rw [h]
  · intro cfg s s' sess h
    have hcache : s'.hacSession = some sess := by
      have hm := ensureHacSession_hacSession cfg s
      rw [h] at hm
      exact hm
    unfold ensureHacSession
    rw [hcache]

/-- Witness for C8: in the concrete four-step login scenario, the second
call returns the first call's Session with the state unchanged. -/
theorem ensureHacSession_cached_no_io_witness :
    ensureHacSession demoConfig ((ensureHacSession demoConfig (initialState none c2LoginScript)).2)
      = (.ok { cookies := ["JSESSIONID=def"], csrfToken := "tok2" },
         (ensureHacSession demoConfig (initialState none c2LoginScript)).2) :=
  ensureHacSession_cached_no_io.2 demoConfig (initialState none c2LoginScript) _
    { cookies := ["JSESSIONID=def"], csrfToken := "tok2" } rfl

/-! ## C9 -/

/-- C9: the session cache is atomic — an execution of the login protocol
that fails at any step leaves the cached session exactly as it was at
entry, and a successful execution caches exactly the returned Session
(so the cache only ever holds no Session or a fully constructed one). -/
theorem ensureHacSession_cache_atomic :
    (∀ (cfg : HybrisConfig) (s : ClientState) (e : String) (s' : ClientState),
        ensureHacSession cfg s = (.error e, s') → s'.hacSession = s.hacSession)
  ∧ (∀ (cfg : HybrisConfig) (s : ClientState) (sess : HacSession) (s' : ClientState),
        ensureHacSession cfg s = (.ok sess, s') → s'.hacSession = some sess) := by
  constructor
  · intro cfg s e s' h
    have hm := ensureHacSession_hacSession cfg s
    rw [h] at hm
    exact hm
  · intro cfg s sess s' h
    have hm := ensureHacSession_hacSession cfg s
    rw [h] at hm
    exact hm

/-- Witness for C9: a login attempt that dies on the first network call
leaves the (empty) cache unchanged; the successful four-step scenario
caches the returned Session. -/
theorem ensureHacSession_cache_atomic_witness :
    (ensureHacSession demoConfig (initialState none [.netError "ECONNREFUSED"])).2.hacSession
      = (initialState none [.netError "ECONNREFUSED"]).hacSession
  ∧ (ensureHacSession demoConfig (initialState none c2LoginScript)).2.hacSession
      = some { cookies := ["JSESSIONID=def"], csrfToken := "tok2" } :=
  ⟨ensureHacSession_cache_atomic.1 demoConfig (initialState none [.netError "ECONNREFUSED"])
      "ECONNREFUSED" _ rfl,
   ensureHacSession_cache_atomic.2 demoConfig (initialState none c2LoginScript)
      { cookies := ["JSESSIONID=def"], csrfToken := "tok2" } _ rfl⟩

/-! ## C10 -/

/-- A server whose product-search endpoint answers 200 `application/json`
with the body `null`. -/
def nullBodyScript : List NetEvent :=
  [.reply { status := 200, contentType := some "application/json", body := "null" }]

/-- C10 counterexample: the underlying product search succeeds (the body
`null` is valid JSON), yet `healthCheck` does not return
`healthy := true` with a total-results count — the `result.pagination`
access throws into the catch and the call reports `healthy := false`
with the TypeError message. -/
theorem healthCheck_null_counterexample :
    (∃ r s', searchProducts demoConfig "" 1 0 (initialState none nullBodyScript)
        = (.ok r, s'))
  ∧ (healthCheck demoConfig (initialState none nullBodyScript)).1
      = .ok { healthy := false, details := .errInfo nullPaginationMsg } :=
  ⟨⟨.json .null, _, rfl⟩, rfl⟩

/-- C10 (amended): `healthCheck` is total — whatever the underlying
product-search request does (succeed, or raise for any reason: HTTP
error, disguised HTML, timeout, network failure), `healthCheck` resolves
with a value and never raises: when the search succeeds and the
total-products field access on its result also succeeds,
`healthy := true` with the baseSiteId and the extracted total-results
count; when the search raises, or succeeds with the JSON result `null`
(whose `result.pagination` access raises a TypeError inside the same
try), `healthy := false` with the raised error message in the
details. -/
theorem healthCheck_total (cfg : HybrisConfig) (s : ClientState) :
    ∃ (h : HealthStatus) (s' : ClientState),
      healthCheck cfg s = (.ok h, s')
      ∧ ((∃ e, searchProducts cfg "" 1 0 s = (.error e, s')
              ∧ h = { healthy := false, details := .errInfo e })
        ∨ (∃ e, searchProducts cfg "" 1 0 s = (.ok (.json .null), s')
              ∧ totalResultsOf (.json .null) = .error e
              ∧ h = { healthy := false, details := .errInfo e })
        ∨ (∃ r tp, searchProducts cfg "" 1 0 s = (.ok r, s')
              ∧ totalResultsOf r = .ok tp
              ∧ h = { healthy := true,
                      details := .okInfo cfg.baseSiteId tp })) := by
  unfold healthCheck
  rcases hsp : searchProducts cfg "" 1 0 s with ⟨x, s1⟩
  cases x with
  | error e =>
    exact ⟨{ healthy := false, details := .errInfo e }, s1, rfl, Or.inl ⟨e, rfl, rfl⟩⟩
  | ok r =>
    cases r with
    | text t =>
      exact ⟨{ healthy := true, details := .okInfo cfg.baseSiteId none }, s1,
        rfl, Or.inr (Or.inr ⟨.text t, none, rfl, rfl, rfl⟩)⟩
    | json v =>
      cases v with
      | null =>
        exact ⟨{ healthy := false, details := .errInfo nullPaginationMsg }, s1,
          rfl, Or.inr (Or.inl ⟨nullPaginationMsg, rfl, rfl, rfl⟩)⟩
      | bool b =>
        exact ⟨{ healthy := true, details := .okInfo cfg.baseSiteId none }, s1,
          rfl, Or.inr (Or.inr ⟨.json (.bool b), none, rfl, rfl, rfl⟩)⟩
      | num n =>
        exact ⟨{ healthy := true, details := .okInfo cfg.baseSiteId none }, s1,
          rfl, Or.inr (Or.inr ⟨.json (.num n), none, rfl, rfl, rfl⟩)⟩
      | str t =>
        exact ⟨{ healthy := true, details := .okInfo cfg.baseSiteId none }, s1,
          rfl, Or.inr (Or.inr ⟨.json (.str t), none, rfl, rfl, rfl⟩)⟩
      | arr es =>
        exact ⟨{ healthy := true, details := .okInfo cfg.baseSiteId none }, s1,
          rfl, Or.inr (Or.inr ⟨.json (.arr es), none, rfl, rfl, rfl⟩)⟩
      | obj fs =>
        refine ⟨_, s1, rfl, Or.inr (Or.inr ⟨.json (.obj fs), _, rfl, rfl, rfl⟩)⟩

/-! ## C3 -/

theorem mergeCookies_names_eq (A B : List String) :
    cookieNames (mergeCookies A B) = ((A ++ B).foldl buildStep []).map (·.1) := by
  rw [mergeCookies_eq_buildMap]
  unfold cookieNames
  rw [List.map_map]
  apply List.map_congr_left
  intro p hp
  show cookieName p.2 = p.1
  exact (foldl_buildStep_fst_name (A ++ B) [] (by simp) p hp).symm

/-- C3: on cookie sets (lists of `name=value` entries with pairwise
distinct names), the merge keeps every entry of `B` (so `B`'s value wins
for names occurring on both sides), keeps every entry of `A` whose name
does not occur in `B`, has pairwise distinct names itself, covers exactly
the union of the names of `A` and `B` — and is idempotent:
`mergeCookies A A = A`. -/
theorem mergeCookies_spec (A B : List String)
    (hA : (cookieNames A).Nodup) (hB : (cookieNames B).Nodup) :
    (∀ c ∈ B, c ∈ mergeCookies A B)
  ∧ (∀ c ∈ A, cookieName c ∉ cookieNames B → c ∈ mergeCookies A B)
  ∧ (cookieNames (mergeCookies A B)).Nodup
  ∧ (∀ n, n ∈ cookieNames (mergeCookies A B) ↔ n ∈ cookieNames A ∨ n ∈ cookieNames B)
  ∧ mergeCookies A A = A := by
  refine ⟨?_, ?_, ?_, ?_, mergeCookies_self A hA⟩
  · intro c hc
    obtain ⟨B₁, B₂, rfl⟩ := List.append_of_mem hc
    have hlast : cookieName c ∉ cookieNames B₂ := by
      unfold cookieNames at hB
      rw [List.map_append, List.map_cons] at hB
      exact (List.nodup_cons.mp (hB.of_append_right)).1
    exact mem_mergeCookies_of_last A (B₁ ++ c :: B₂) (A ++ B₁) B₂ c
      (by rw [List.append_assoc]) hlast
  · intro c hc hnotB
    obtain ⟨A₁, A₂, rfl⟩ := List.append_of_mem hc
    have hlastA : cookieName c ∉ cookieNames A₂ := by
      unfold cookieNames at hA
      rw [List.map_append, List.map_cons] at hA
      exact (List.nodup_cons.mp (hA.of_append_right)).1
    have hlast : cookieName c ∉ cookieNames (A₂ ++ B) := by
      unfold cookieNames
      rw [List.map_append, List.mem_append]
      rintro (h | h)
      · exact hlastA h
      · exact hnotB h
    exact mem_mergeCookies_of_last (A₁ ++ c :: A₂) B A₁ (A₂ ++ B) c
      (by simp) hlast
  · rw [mergeCookies_names_eq]
    exact foldl_buildStep_nodup_keys _ [] (by simp)
  · intro n
    rw [mergeCookies_names_eq, foldl_buildStep_mem_keys]
    unfold cookieNames
    simp

/-- Witness for C3: idempotence and B-wins at concrete cookie sets. -/
theorem mergeCookies_spec_witness :
    mergeCookies ["a=1", "b=2"] ["a=1", "b=2"] = ["a=1", "b=2"]
  ∧ "b=3" ∈ mergeCookies ["a=1", "b=2"] ["b=3", "c=4"] :=
  ⟨(mergeCookies_spec ["a=1", "b=2"] ["a=1", "b=2"] (by decide) (by decide)).2.2.2.2,
   (mergeCookies_spec ["a=1", "b=2"] ["b=3", "c=4"] (by decide) (by decide)).1 "b=3"
     (by decide)⟩

/-! ## C4 -/

/-- A meta tag carrying the token, name attribute first, quoted by `q`. -/
def metaNameFirst (q : Char) (tok : String) : String :=
  "<meta name=" ++ String.mk [q] ++ "_csrf" ++ String.mk [q]
    ++ " content=" ++ String.mk [q] ++ tok ++ String.mk [q] ++ ">"

/-- A meta tag carrying the token, content attribute first. -/
def metaContentFirst (q : Char) (tok : String) : String :=
  "<meta content=" ++ String.mk [q] ++ tok ++ String.mk [q]
    ++ " name=" ++ String.mk [q] ++ "_csrf" ++ String.mk [q] ++ ">"

/-- A hidden input carrying the token, name attribute first. -/
def inputNameFirst (q : Char) (tok : String) : String :=
  "<input type=" ++ String.mk [q] ++ "hidden" ++ String.mk [q]
    ++ " name=" ++ String.mk [q] ++ "_csrf" ++ String.mk [q]
    ++ " value=" ++ String.mk [q] ++ tok ++ String.mk [q] ++ ">"

/-- A hidden input carrying the token, value attribute first. -/
def inputValueFirst (q : Char) (tok : String) : String :=
  "<input type=" ++ String.mk [q] ++ "hidden" ++ String.mk [q]
    ++ " value=" ++ String.mk [q] ++ tok ++ String.mk [q]
    ++ " name=" ++ String.mk [q] ++ "_csrf" ++ String.mk [q] ++ ">"

/-! ## C7 -/

theorem isPrefixOf_self_char : ∀ l : List Char, l.isPrefixOf l = true := by
  intro l
  induction l with
  | nil => rfl
  | cons a as ih => simp [List.isPrefixOf, ih]

theorem isPrefixOf_append_char (sub l l₂ : List Char) (h : sub.isPrefixOf l = true) :
    sub.isPrefixOf (l ++ l₂) = true := by
  induction sub generalizing l with
  | nil => cases l ++ l₂ <;> rfl
  | cons a as ih =>
    cases l with
    | nil => simp [List.isPrefixOf] at h
    | cons b bs =>
      simp only [List.isPrefixOf, Bool.and_eq_true] at h
      simp [List.isPrefixOf, h.1, ih bs h.2]

theorem listHasSub_self (l : List Char) : listHasSub l l = true := by
  cases l with
  | nil => rfl
  | cons c cs => simp [listHasSub, isPrefixOf_self_char]

theorem listHasSub_append_right (sub l₁ l₂ : List Char)
    (h : listHasSub sub l₂ = true) : listHasSub sub (l₁ ++ l₂) = true := by
  induction l₁ with
  | nil => exact h
  | cons c l₁ ih => simp [listHasSub, ih]

theorem listHasSub_append_left (sub l₁ l₂ : List Char)
    (h : listHasSub sub l₁ = true) : listHasSub sub (l₁ ++ l₂) = true := by
  induction l₁ with
  | nil =>
    have hsub : sub = [] := by
      cases sub with
      | nil => rfl
      | cons a as => simp [listHasSub] at h
    subst hsub
    cases l₂ with
    | nil => rfl
    | cons c cs => simp [listHasSub, List.isPrefixOf]
  | cons c l₁ ih =>
    simp only [listHasSub, Bool.or_eq_true] at h
    rcases h with h | h
    · have h2 : sub.isPrefixOf (c :: (l₁ ++ l₂)) = true :=
        isPrefixOf_append_char sub (c :: l₁) l₂ h
      show (sub.isPrefixOf (c :: (l₁ ++ l₂)) || listHasSub sub (l₁ ++ l₂)) = true
      rw [h2, Bool.true_or]
    · show (sub.isPrefixOf (c :: (l₁ ++ l₂)) || listHasSub sub (l₁ ++ l₂)) = true
      rw [ih h, Bool.or_true]

theorem strIncludes_append_right (a b : String) : strIncludes (a ++ b) b = true := by
  unfold strIncludes
  rw [show (a ++ b).toList = a.toList ++ b.toList from String.data_append a b]
  exact listHasSub_append_right _ _ _ (listHasSub_self _)

theorem strIncludes_append_left (a b sub : String) (h : strIncludes a sub = true) :
    strIncludes (a ++ b) sub = true := by
  unfold strIncludes at h ⊢
  rw [show (a ++ b).toList = a.toList ++ b.toList from String.data_append a b]
  exact listHasSub_append_left _ _ _ h

/-- C7: a `fetch` call aborted by the timeout timer fails with the
`Request timeout after 30000ms: <url>` error — a message that contains
the configured bound and the target URL — after consuming exactly one
network call; and a protected call whose request times out propagates
exactly that error without any retry (exactly one network call is made). -/
theorem fetchWithTimeout_timeout_spec :
    (∀ (req : HttpRequest) (s : ClientState), s.oracle s.calls = .timeoutEvt →
       fetchWithTimeout req s
         = (.error ("Request timeout after " ++ toString REQUEST_TIMEOUT_MS
                    ++ "ms: " ++ req.url),
            { s with calls := s.calls + 1, log := s.log ++ [req] })
       ∧ strIncludes ("Request timeout after " ++ toString REQUEST_TIMEOUT_MS
                    ++ "ms: " ++ req.url) (toString REQUEST_TIMEOUT_MS) = true
       ∧ strIncludes ("Request timeout after " ++ toString REQUEST_TIMEOUT_MS
                    ++ "ms: " ++ req.url) req.url = true)
  ∧ (∀ (cfg : HybrisConfig) (endpoint : String) (opts : ReqOptions)
       (s : ClientState) (sess : HacSession),
       s.hacSession = some sess → s.oracle s.calls = .timeoutEvt →
       (hacRequest cfg endpoint opts 0 s).1
         = .error ("Request timeout after " ++ toString REQUEST_TIMEOUT_MS
                   ++ "ms: " ++ (cfg.baseUrl ++ endpoint))
       ∧ (hacRequest cfg endpoint opts 0 s).2.calls = s.calls + 1) := by
  constructor
  · intro req s h
    refine ⟨?_, ?_, ?_⟩
    · unfold fetchWithTimeout
      rw [h]
    · apply strIncludes_append_left
      apply strIncludes_append_left
      exact strIncludes_append_right _ _
    · exact strIncludes_append_right _ _
  · intro cfg endpoint opts s sess hs horc
    unfold hacRequest hacRequestGo hacRequestBody ensureHacSession fetchWithTimeout
    rw [hs]
    dsimp only
    rw [horc]
    exact ⟨rfl, rfl⟩

/-- Witness for C7: the timeout error at a concrete request and at a
concrete protected call. -/
theorem fetchWithTimeout_timeout_spec_witness :
    fetchWithTimeout { url := "https://localhost:9002/hac/x" }
        (initialState none [.timeoutEvt])
      = (.error "Request timeout after 30000ms: https://localhost:9002/hac/x",
         { hacSession := none, oracle := scriptOracle [.timeoutEvt], calls := 1,
           log := [{ url := "https://localhost:9002/hac/x" }] })
  ∧ (hacRequest demoConfig "/hac/x" { method := "GET" } 0
        (initialState (some staleSession) [.timeoutEvt])).1
      = .error "Request timeout after 30000ms: https://localhost:9002/hac/x" :=
  ⟨(fetchWithTimeout_timeout_spec.1 { url := "https://localhost:9002/hac/x" }
      (initialState none [.timeoutEvt]) rfl).1,
   (fetchWithTimeout_timeout_spec.2 demoConfig "/hac/x" { method := "GET" }
      (initialState (some staleSession) [.timeoutEvt]) staleSession rfl rfl).1⟩

/-! ## C6 -/

/-- A protected call answered 500 with an HTML error page. -/
def html500Script : List NetEvent :=
  [ .reply { status := 500, contentType := some "text/html",
             body := "<html>Server Error</html>" } ]

/-- Counterexample to C6 as stated: a response with content type
text/html whose body contains `<html` but whose status is 500 does NOT
fail with the unexpected-response error — the status gate fires first and
the call fails with the status-carrying `HAC API error` instead. -/
theorem hacRequest_html_500_counterexample :
    (hacRequest demoConfig "/hac/x" { method := "GET" } 0
        (initialState (some staleSession) html500Script)).1
      = .error "HAC API error (500): <html>Server Error</html>"
  ∧ strStartsWith "HAC API error (500): <html>Server Error</html>"
      "Unexpected HTML response" = false :=
  ⟨rfl, rfl⟩

/-- C6 (amended): response classification happens only for responses that
pass the status gate.  In the session pipeline (status 2xx, or 302 whose
Location is not a login redirect): a JSON content type with body
`\x7b"ok":true\x7d` resolves to the structured value, and a text/html
content type with a `<html` marker fails with the unexpected-response
error carrying a bounded body prefix; any other status fails with the
status-carrying `HAC API error`.  In the basic-auth pipeline the same
classification applies to 2xx responses. -/
theorem hacRequest_response_classification :
    ∀ (cfg : HybrisConfig) (endpoint : String) (opts : ReqOptions)
      (s : ClientState) (sess : HacSession) (r : HttpResponse),
      s.hacSession = some sess → s.oracle s.calls = .reply r →
      (r.status == 302 && optIncludes r.location "login") = false →
      ((r.isOk || r.status == 302) = true →
         optIncludes r.contentType "application/json" = true →
         r.body = "\x7b\"ok\":true\x7d" →
         (hacRequest cfg endpoint opts 0 s).1 = .ok (.json (.obj [("ok", .bool true)])))
      ∧ ((r.isOk || r.status == 302) = false →
         (hacRequest cfg endpoint opts 0 s).1
           = .error ("HAC API error (" ++ toString r.status ++ "): " ++ r.body))
      ∧ ((r.isOk || r.status == 302) = true →
         optIncludes r.contentType "application/json" = false →
         (optIncludes r.contentType "text/html" && strIncludes r.body "<html") = true →
         (hacRequest cfg endpoint opts 0 s).1
           = .error ("Unexpected HTML response (possible auth failure): "
                     ++ strTake r.body 200 ++ "..."))
      ∧ (r.isOk = true →
         optIncludes r.contentType "application/json" = true →
         r.body = "\x7b\"ok\":true\x7d" →
         (request cfg endpoint opts s).1 = .ok (.json (.obj [("ok", .bool true)])))
      ∧ (r.isOk = true →
         optIncludes r.contentType "application/json" = false →
         (optIncludes r.contentType "text/html" && strIncludes r.body "<html") = true →
         (request cfg endpoint opts s).1
           = .error ("Unexpected HTML response (possible auth failure): "
                     ++ strTake r.body 200 ++ "...")) := by
  intro cfg endpoint opts s sess r hs horc hno
  unfold hacRequest hacRequestGo hacRequestBody request ensureHacSession fetchWithTimeout
  rw [hs]
  dsimp only
  rw [horc]
  dsimp only
  rw [hno]
  simp only [Bool.false_eq_true, if_false]
  refine ⟨?_, ?_, ?_, ?_, ?_⟩
  · intro hgate hjson hbody
    have hfail : (!r.isOk && decide (r.status ≠ 302)) = false := by
      rcases Bool.or_eq_true_iff.mp hgate with h1 | h2
      · simp [h1]
      · have h3 : r.status = 302 := by simpa using h2
        simp [h3]
    rw [hfail]
    simp only [Bool.false_eq_true, if_false]
    rw [hjson]
    simp only [if_true]
    rw [hbody]
    rfl
  · intro hgate
    have h1 : r.isOk = false := by
      rcases Bool.or_eq_false_iff.mp hgate with ⟨h1, _⟩
      exact h1
    have h2 : (r.status == 302) = false := (Bool.or_eq_false_iff.mp hgate).2
    have h3 : r.status ≠ 302 := by simpa using h2
    have hfail : (!r.isOk && decide (r.status ≠ 302)) = true := by
      simp [h1, h3]
    rw [hfail]
    simp only [if_true]
  · intro hgate hjson hhtml
    have hfail : (!r.isOk && decide (r.status ≠ 302)) = false := by
      rcases Bool.or_eq_true_iff.mp hgate with h1 | h2
      · simp [h1]
      · have h3 : r.status = 302 := by simpa using h2
        simp [h3]
    rw [hfail]
    simp only [Bool.false_eq_true, if_false]
    rw [hjson]
    simp only [Bool.false_eq_true, if_false]
    rw [hhtml]
    simp only [if_true]
  · intro hok hjson hbody
    have hnotok : (!r.isOk) = false := by simp [hok]
    rw [hnotok]
    simp only [Bool.false_eq_true, if_false]
    rw [hjson]
    simp only [if_true]
    rw [hbody]
    rfl
  · intro hok hjson hhtml
    have hnotok : (!r.isOk) = false := by simp [hok]
    rw [hnotok]
    simp only [Bool.false_eq_true, if_false]
    rw [hjson]
    simp only [Bool.false_eq_true, if_false]
    rw [hhtml]
    simp only [if_true]

/-- Witness for C6 (amended): the JSON decode at a concrete 200 response
and the unexpected-HTML failure at a concrete 200 response. -/
theorem hacRequest_response_classification_witness :
    (hacRequest demoConfig "/hac/x" { method := "GET" } 0
        (initialState (some staleSession) [jsonOkReply])).1
      = .ok (.json (.obj [("ok", .bool true)]))
  ∧ (hacRequest demoConfig "/hac/x" { method := "GET" } 0
        (initialState (some staleSession)
          [.reply { status := 200, contentType := some "text/html",
                    body := "<html>login page</html>" }])).1
      = .error ("Unexpected HTML response (possible auth failure): "
                ++ strTake "<html>login page</html>" 200 ++ "...") :=
  ⟨(hacRequest_response_classification demoConfig "/hac/x" { method := "GET" }
      (initialState (some staleSession) [jsonOkReply]) staleSession
      { status := 200, contentType := some "application/json", body := "\x7b\"ok\":true\x7d" }
      rfl rfl rfl).1 rfl rfl rfl,
   (hacRequest_response_classification demoConfig "/hac/x" { method := "GET" }
      (initialState (some staleSession)
        [.reply { status := 200, contentType := some "text/html",
                  body := "<html>login page</html>" }]) staleSession
      { status := 200, contentType := some "text/html", body := "<html>login page</html>" }
      rfl rfl rfl).2.2.1 rfl rfl rfl⟩

/-! ## Universal-token lemmas for the CSRF scraper -/

theorem ciEq_refl (c : Char) : ciEq c c = true := by simp [ciEq]

theorem ciLit_self_append (l rest : List Char) : ciLit l (l ++ rest) = true := by
  induction l with
  | nil => rfl
  | cons a as ih => simp [ciLit, ciEq_refl, ih]

theorem ciLit_le_length (p cs : List Char) (h : ciLit p cs = true) :
    p.length ≤ cs.length := by
  induction p generalizing cs with
  | nil => simp
  | cons a as ih =>
    cases cs with
    | nil => simp [ciLit] at h
    | cons b bs =>
      simp only [ciLit, Bool.and_eq_true] at h
      simpa [List.length_cons] using ih bs h.2

theorem ciLit_get_eq (p cs : List Char) (h : ciLit p cs = true) :
    ∀ (i : Nat) (hp : i < p.length) (hc : i < cs.length),
      ciEq (p.get ⟨i, hp⟩) (cs.get ⟨i, hc⟩) = true := by
  induction p generalizing cs with
  | nil => intro i hp; simp at hp
  | cons a as ih =>
    intro i hp hc
    cases cs with
    | nil => simp [ciLit] at h
    | cons b bs =>
      simp only [ciLit, Bool.and_eq_true] at h
      cases i with
      | zero => exact h.1
      | succ j =>
        exact ih bs h.2 j (Nat.lt_of_succ_lt_succ hp) (Nat.lt_of_succ_lt_succ hc)

theorem takeWhile_append_all {p : Char → Bool} (l r : List Char)
    (h : ∀ c ∈ l, p c = true) :
    (l ++ r).takeWhile p = l ++ r.takeWhile p := by
  induction l with
  | nil => rfl
  | cons c l ih =>
    simp only [List.cons_append, List.takeWhile_cons, h c (List.mem_cons_self c l), if_true]
    rw [ih (fun d hd => h d (List.mem_cons_of_mem c hd))]

theorem findSome?_append_none {α β : Type} {f : α → Option β} {l₁ l₂ : List α}
    (h : ∀ x ∈ l₁, f x = none) :
    (l₁ ++ l₂).findSome? f = l₂.findSome? f := by
  induction l₁ with
  | nil => rfl
  | cons a l ih =>
    rw [List.cons_append, List.findSome?_cons, h a (List.mem_cons_self a l)]
    exact ih (fun x hx => h x (List.mem_cons_of_mem a hx))

theorem searchCapture_cons_eq (its : List RE) (c : Char) (cs' : List Char) :
    searchCapture its (c :: cs')
      = match matchItems its (c :: cs') with
        | some g => some (g.getD [])
        | none => searchCapture its cs' := rfl

theorem searchCapture_append_skip (its : List RE) (pre rest : List Char)
    (h : ∀ n, n < pre.length → matchItems its (pre.drop n ++ rest) = none) :
    searchCapture its (pre ++ rest) = searchCapture its rest := by
  induction pre with
  | nil => rfl
  | cons c pre' ih =>
    rw [List.cons_append, searchCapture_cons_eq]
    have h0 := h 0 (by simp)
    simp only [List.drop_zero, List.cons_append] at h0
    rw [h0]
    exact ih (fun n hn => h (n + 1) (by simpa using Nat.succ_lt_succ hn))

theorem quote_ne_gt (q : Char) (hq : isQuoteChar q = true) : q ≠ '>' := by
  simp only [isQuoteChar, Bool.or_eq_true, beq_iff_eq] at hq
  rcases hq with rfl | rfl <;> decide

theorem quote_cases (q : Char) (hq : isQuoteChar q = true) :
    q = dquoteChar ∨ q = squoteChar := by
  simpa [isQuoteChar] using hq

theorem range'_reverse_cons (n : Nat) :
    (List.range' 1 (n + 1)).reverse = (n + 1) :: (List.range' 1 n).reverse := by
  rw [List.range'_concat, List.reverse_append]
  simp [Nat.add_comm]

theorem range_reverse_split (n : Nat) :
    (List.range (n + 2)).reverse = (List.range' 2 n).reverse ++ [1, 0] := by
  have h : List.range (n + 2) = [0, 1] ++ List.range' 2 n := by
    rw [List.range_eq_range']
    have := List.range'_append 0 2 n 1
    simpa using this.symm
  rw [h, List.reverse_append]
  simp

theorem mem_range'_two {x n : Nat} (h : x ∈ List.range' 2 n) : 2 ≤ x ∧ x < 2 + n := by
  rw [List.mem_range'_1] at h
  exact h

theorem findSome?_all_none {α β : Type} {f : α → Option β} {l : List α}
    (h : ∀ x ∈ l, f x = none) : l.findSome? f = none := by
  induction l with
  | nil => rfl
  | cons a l ih =>
    rw [List.findSome?_cons, h a (List.mem_cons_self a l)]
    exact ih (fun x hx => h x (List.mem_cons_of_mem a hx))

/-- A pattern `lit w, quote, capture, quote, R` cannot match a quote-free
token suffix `t'` followed by a quote: either the literal fails, or it
ends exactly at the closing quote, where the capture finds nothing
usable (hypothesis `hE`), or it ends inside the token where no quote
follows. -/
theorem litQuotePlus_tail_none (w : String) (q : Char) (R : List RE)
    (E t' : List Char)
    (hq : isQuoteChar q = true)
    (hbnd : ∀ (i : Nat) (h : i < w.toList.length),
        ciEq (w.toList.get ⟨i, h⟩) q = false)
    (ht' : ∀ c ∈ t', isQuoteChar c = false)
    (hE : matchItems (RE.plusNonQuoteCap :: RE.quoteCls :: R) E = none) :
    matchItems (RE.lit w :: RE.quoteCls :: RE.plusNonQuoteCap :: RE.quoteCls :: R)
      (t' ++ q :: E) = none := by
  rw [matchItems_lit_eq]
  by_cases hci : ciLit w.toList (t' ++ q :: E) = true
  case neg => rw [if_neg hci]
  rw [if_pos hci]
  rcases Nat.lt_trichotomy t'.length w.toList.length with hlt | heq | hgt
  · exfalso
    have hcl : t'.length < (t' ++ q :: E).length := by
      simp only [List.length_append, List.length_cons]
      omega
    have hval := ciLit_get_eq _ _ hci t'.length hlt hcl
    have hget : (t' ++ q :: E).get ⟨t'.length, hcl⟩ = q := by
      rw [List.get_eq_getElem]
      rw [List.getElem_append_right (Nat.le_refl t'.length)]
      simp
    rw [hget] at hval
    rw [hbnd t'.length hlt] at hval
    cases hval
  · have hdrop : (t' ++ q :: E).drop w.toList.length = q :: E := by
      rw [← heq]
      exact List.drop_left t' (q :: E)
    rw [hdrop, matchItems_quote_cons_eq, if_pos hq]
    exact hE
  · have hdrop : (t' ++ q :: E).drop w.toList.length
        = t'.drop w.toList.length ++ q :: E := by
      rw [List.drop_append_eq_append_drop, Nat.sub_eq_zero_of_le (Nat.le_of_lt hgt)]
      rfl
    rw [hdrop]
    cases hdt : t'.drop w.toList.length with
    | nil =>
      exfalso
      have := congrArg List.length hdt
      simp only [List.length_drop, List.length_nil] at this
      omega
    | cons c rest' =>
      have hc : c ∈ t' :=
        List.mem_of_mem_drop (by rw [hdt]; exact List.mem_cons_self c rest')
      rw [List.cons_append, matchItems_quote_cons_eq, if_neg]
      simp [ht' c hc]

/-- A pattern `lit w, quote, lit w2, R` cannot match a quote-free token
suffix `t'` followed by a quote, when `w2` does not match past the
quote. -/
theorem litQuoteLit_tail_none (w w2 : String) (q : Char) (R : List RE)
    (E t' : List Char)
    (hq : isQuoteChar q = true)
    (hbnd : ∀ (i : Nat) (h : i < w.toList.length),
        ciEq (w.toList.get ⟨i, h⟩) q = false)
    (ht' : ∀ c ∈ t', isQuoteChar c = false)
    (hE2 : ciLit w2.toList E = false) :
    matchItems (RE.lit w :: RE.quoteCls :: RE.lit w2 :: R) (t' ++ q :: E) = none := by
  rw [matchItems_lit_eq]
  by_cases hci : ciLit w.toList (t' ++ q :: E) = true
  case neg => rw [if_neg hci]
  rw [if_pos hci]
  rcases Nat.lt_trichotomy t'.length w.toList.length with hlt | heq | hgt
  · exfalso
    have hcl : t'.length < (t' ++ q :: E).length := by
      simp only [List.length_append, List.length_cons]
      omega
    have hval := ciLit_get_eq _ _ hci t'.length hlt hcl
    have hget : (t' ++ q :: E).get ⟨t'.length, hcl⟩ = q := by
      rw [List.get_eq_getElem]
      rw [List.getElem_append_right (Nat.le_refl t'.length)]
      simp
    rw [hget] at hval
    rw [hbnd t'.length hlt] at hval
    cases hval
  · have hdrop : (t' ++ q :: E).drop w.toList.length = q :: E := by
      rw [← heq]
      exact List.drop_left t' (q :: E)
    rw [hdrop, matchItems_quote_cons_eq, if_pos hq, matchItems_lit_eq, if_neg]
    intro hcontra
    rw [hE2] at hcontra
    cases hcontra
  · have hdrop : (t' ++ q :: E).drop w.toList.length
        = t'.drop w.toList.length ++ q :: E := by
      rw [List.drop_append_eq_append_drop, Nat.sub_eq_zero_of_le (Nat.le_of_lt hgt)]
      rfl
    rw [hdrop]
    cases hdt : t'.drop w.toList.length with
    | nil =>
      exfalso
      have := congrArg List.length hdt
      simp only [List.length_drop, List.length_nil] at this
      omega
    | cons c rest' =>
      have hc : c ∈ t' :=
        List.mem_of_mem_drop (by rw [hdt]; exact List.mem_cons_self c rest')
      rw [List.cons_append, matchItems_quote_cons_eq, if_neg]
      simp [ht' c hc]

/-- The greedy capture `([^"']+)` placed before a closing quote takes the
whole quote-free token on its first (longest) attempt. -/
theorem plus_greedy_head (R : List RE) (tok E : List Char) (q : Char)
    (htok : tok ≠ [])
    (hchars : ∀ c ∈ tok, isQuoteChar c = false)
    (hq : isQuoteChar q = true)
    (hE : matchItems (RE.quoteCls :: R) (q :: E) ≠ none) :
    matchItems (RE.plusNonQuoteCap :: RE.quoteCls :: R) (tok ++ q :: E)
      = some (some tok) := by
  rw [matchItems_plus_eq]
  have htw : ((tok ++ q :: E).takeWhile (fun c => !isQuoteChar c)) = tok := by
    rw [takeWhile_append_all _ _ (fun c hc => by simp [hchars c hc])]
    simp [List.takeWhile_cons, hq]
  rw [htw]
  obtain ⟨m, hm⟩ : ∃ m, tok.length = m + 1 := by
    cases tok with
    | nil => exact absurd rfl htok
    | cons c cs => exact ⟨cs.length, rfl⟩
  rw [hm, range'_reverse_cons, List.findSome?_cons]
  have hdrop : (tok ++ q :: E).drop (m + 1) = q :: E := by
    rw [← hm]
    exact List.drop_left tok (q :: E)
  have htake : (tok ++ q :: E).take (m + 1) = tok := by
    rw [← hm]
    exact List.take_left tok (q :: E)
  rw [hdrop, htake]
  cases hmi : matchItems (RE.quoteCls :: R) (q :: E) with
  | none => exact absurd hmi hE
  | some g => rfl

/-- The greedy `[^>]*` before `lit w` backtracks from its longest extent
down to the single space separating the attributes, where `w` matches and
the capture takes the whole token: no longer extent can match, because
`w` cannot start inside the quote-free token, at the closing quote, or at
`>`. -/
theorem star_seek (w : String) (q : Char) (tok : List Char)
    (hq : isQuoteChar q = true)
    (hbnd : ∀ (i : Nat) (h : i < w.toList.length),
        ciEq (w.toList.get ⟨i, h⟩) q = false)
    (hw_gt : ∀ c ∈ w.toList, c ≠ '>')
    (hgtLit : ciLit w.toList ['>'] = false)
    (htok : tok ≠ [])
    (hchars : ∀ c ∈ tok, isQuoteChar c = false ∧ c ≠ '>')
    (hconc : ∀ x, 2 ≤ x → x < (' ' :: w.toList ++ [q]).length →
        matchItems [RE.lit w, RE.quoteCls, RE.plusNonQuoteCap, RE.quoteCls]
          (((' ' :: w.toList ++ [q]).drop x) ++ (tok ++ [q, '>'])) = none) :
    matchItems (RE.starNonGt :: [RE.lit w, RE.quoteCls, RE.plusNonQuoteCap, RE.quoteCls])
      ((' ' :: w.toList ++ [q]) ++ (tok ++ [q, '>'])) = some (some tok) := by
  have hqgt := quote_ne_gt q hq
  rw [matchItems_star_eq]
  have htwY : ((tok ++ [q, '>']).takeWhile (fun c => decide (c ≠ '>'))) = tok ++ [q] := by
    rw [takeWhile_append_all _ _ (fun c hc => by simp [(hchars c hc).2])]
    simp [List.takeWhile_cons, hqgt]
  have htw : (((' ' :: w.toList ++ [q]) ++ (tok ++ [q, '>'])).takeWhile
        (fun c => decide (c ≠ '>'))) = (' ' :: w.toList ++ [q]) ++ (tok ++ [q]) := by
    rw [takeWhile_append_all _ _ ?hC, htwY]
    case hC =>
      intro c hc
      simp only [List.cons_append, List.mem_cons, List.mem_append,
        List.mem_singleton] at hc
      rcases hc with rfl | hc | rfl | h0
      · decide
      · simp [hw_gt c hc]
      · simp [hqgt]
      · cases h0
  rw [htw]
  have hlen : ((' ' :: w.toList ++ [q]) ++ (tok ++ [q])).length
      = ((' ' :: w.toList ++ [q]).length + tok.length) + 1 := by
    simp
    omega
  rw [hlen]
  rw [show ((' ' :: w.toList ++ [q]).length + tok.length) + 1 + 1
      = ((' ' :: w.toList ++ [q]).length + tok.length) + 2 from rfl]
  rw [range_reverse_split ((' ' :: w.toList ++ [q]).length + tok.length)]
  have hall : ∀ x ∈ (List.range' 2 ((' ' :: w.toList ++ [q]).length + tok.length)).reverse,
      matchItems [RE.lit w, RE.quoteCls, RE.plusNonQuoteCap, RE.quoteCls]
        (((' ' :: w.toList ++ [q]) ++ (tok ++ [q, '>'])).drop x) = none := by
    intro x hx
    rw [List.mem_reverse] at hx
    obtain ⟨h2, hup⟩ := mem_range'_two hx
    by_cases hxC : x < (' ' :: w.toList ++ [q]).length
    · have hdropx : ((' ' :: w.toList ++ [q]) ++ (tok ++ [q, '>'])).drop x
          = (' ' :: w.toList ++ [q]).drop x ++ (tok ++ [q, '>']) := by
        rw [List.drop_append_eq_append_drop, Nat.sub_eq_zero_of_le (Nat.le_of_lt hxC)]
        rfl
      rw [hdropx]
      exact hconc x h2 hxC
    · push_neg at hxC
      have hdropx : ((' ' :: w.toList ++ [q]) ++ (tok ++ [q, '>'])).drop x
          = (tok ++ [q, '>']).drop (x - (' ' :: w.toList ++ [q]).length) := by
        rw [List.drop_append_eq_append_drop, List.drop_eq_nil_of_le hxC]
        rfl
      rw [hdropx]
      by_cases hjtok : x - (' ' :: w.toList ++ [q]).length ≤ tok.length
      · have hdropj : (tok ++ [q, '>']).drop (x - (' ' :: w.toList ++ [q]).length)
            = tok.drop (x - (' ' :: w.toList ++ [q]).length) ++ q :: ['>'] := by
          rw [List.drop_append_eq_append_drop, Nat.sub_eq_zero_of_le hjtok]
          rfl
        rw [hdropj]
        exact litQuotePlus_tail_none w q [] ['>'] _ hq hbnd
          (fun c hc => (hchars c (List.mem_of_mem_drop hc)).1) rfl
      · push_neg at hjtok
        have hj1 : x - (' ' :: w.toList ++ [q]).length = tok.length + 1 := by omega
        have hdropj : (tok ++ [q, '>']).drop (x - (' ' :: w.toList ++ [q]).length)
            = ['>'] := by
          rw [hj1, List.drop_append_eq_append_drop,
            List.drop_eq_nil_of_le (by omega),
            show tok.length + 1 - tok.length = 1 from by omega]
          rfl
        rw [hdropj, matchItems_lit_eq, if_neg]
        intro hcontra
        rw [hgtLit] at hcontra
        cases hcontra
  rw [findSome?_append_none hall, List.findSome?_cons]
  have hf1 : matchItems [RE.lit w, RE.quoteCls, RE.plusNonQuoteCap, RE.quoteCls]
      (((' ' :: w.toList ++ [q]) ++ (tok ++ [q, '>'])).drop 1) = some (some tok) := by
    have hdrop1 : ((' ' :: w.toList ++ [q]) ++ (tok ++ [q, '>'])).drop 1
        = w.toList ++ (q :: (tok ++ [q, '>'])) := by
      simp [List.append_assoc]
    rw [hdrop1, matchItems_lit_eq, if_pos (ciLit_self_append _ _),
      List.drop_left, matchItems_quote_cons_eq, if_pos hq]
    apply plus_greedy_head [] tok ['>'] q htok (fun c hc => (hchars c hc).1) hq
    rw [matchItems_quote_cons_eq, if_pos hq, matchItems_nil_eq]
    simp
  simp only [hf1]

/-- The greedy `[^>]*` before `lit w` finds no extent at all when `w`
matches at no position of the concrete prefix `C` and cannot start inside
the quote-free token, at the closing quote, or at `>`. -/
theorem star_all_fail (w : String) (q : Char) (C tok : List Char)
    (hq : isQuoteChar q = true)
    (hbnd : ∀ (i : Nat) (h : i < w.toList.length),
        ciEq (w.toList.get ⟨i, h⟩) q = false)
    (hCgt : ∀ c ∈ C, c ≠ '>')
    (hgtLit : ciLit w.toList ['>'] = false)
    (hchars : ∀ c ∈ tok, isQuoteChar c = false ∧ c ≠ '>')
    (hconcAll : ∀ x, x < C.length →
        matchItems [RE.lit w, RE.quoteCls, RE.plusNonQuoteCap, RE.quoteCls]
          ((C.drop x) ++ (tok ++ [q, '>'])) = none) :
    matchItems (RE.starNonGt :: [RE.lit w, RE.quoteCls, RE.plusNonQuoteCap, RE.quoteCls])
      (C ++ (tok ++ [q, '>'])) = none := by
  have hqgt := quote_ne_gt q hq
  rw [matchItems_star_eq]
  have htwY : ((tok ++ [q, '>']).takeWhile (fun c => decide (c ≠ '>'))) = tok ++ [q] := by
    rw [takeWhile_append_all _ _ (fun c hc => by simp [(hchars c hc).2])]
    simp [List.takeWhile_cons, hqgt]
  have htw : ((C ++ (tok ++ [q, '>'])).takeWhile (fun c => decide (c ≠ '>')))
      = C ++ (tok ++ [q]) := by
    rw [takeWhile_append_all _ _ (fun c hc => by simp [hCgt c hc]), htwY]
  rw [htw]
  apply findSome?_all_none
  intro x hx
  rw [List.mem_reverse, List.mem_range] at hx
  by_cases hxC : x < C.length
  · have hdropx : (C ++ (tok ++ [q, '>'])).drop x = C.drop x ++ (tok ++ [q, '>']) := by
      rw [List.drop_append_eq_append_drop, Nat.sub_eq_zero_of_le (Nat.le_of_lt hxC)]
      rfl
    rw [hdropx]
    exact hconcAll x hxC
  · push_neg at hxC
    have hdropx : (C ++ (tok ++ [q, '>'])).drop x
        = (tok ++ [q, '>']).drop (x - C.length) := by
      rw [List.drop_append_eq_append_drop, List.drop_eq_nil_of_le hxC]
      rfl
    rw [hdropx]
    by_cases hjtok : x - C.length ≤ tok.length
    · have hdropj : (tok ++ [q, '>']).drop (x - C.length)
          = tok.drop (x - C.length) ++ q :: ['>'] := by
        rw [List.drop_append_eq_append_drop, Nat.sub_eq_zero_of_le hjtok]
        rfl
      rw [hdropj]
      exact litQuotePlus_tail_none w q [] ['>'] _ hq hbnd
        (fun c hc => (hchars c (List.mem_of_mem_drop hc)).1) rfl
    · push_neg at hjtok
      have hxlen : x < C.length + (tok.length + 1) + 1 := by
        have : (C ++ (tok ++ [q])).length = C.length + (tok.length + 1) := by simp
        omega
      have hj1 : x - C.length = tok.length + 1 := by omega
      have hdropj : (tok ++ [q, '>']).drop (x - C.length) = ['>'] := by
        rw [hj1, List.drop_append_eq_append_drop,
          List.drop_eq_nil_of_le (by omega),
          show tok.length + 1 - tok.length = 1 from by omega]
        rfl
      rw [hdropj, matchItems_lit_eq, if_neg]
      intro hcontra
      rw [hgtLit] at hcontra
      cases hcontra

theorem searchCapture_match_some (its : List RE) (cs : List Char)
    (g : Option (List Char)) (h : matchItems its cs = some g) :
    searchCapture its cs = some (g.getD []) := by
  cases cs with
  | nil =>
    show (matchItems its []).map (fun g => g.getD []) = _
    rw [h]
    rfl
  | cons c cs' =>
    rw [searchCapture_cons_eq, h]

theorem strAppend_assoc (s t u : String) : (s ++ t) ++ u = s ++ (t ++ u) := by
  cases s
  cases t
  cases u
  show String.mk _ = String.mk _
  rw [List.append_assoc]

/-- Pattern 1 finds the token in a name-first meta tag, for every
quote-free token and either quoting style. -/
theorem searchCapture_pat1_metaNameFirst (q : Char) (tok : String)
    (hq : isQuoteChar q = true) (htok : tok.toList ≠ [])
    (hchars : ∀ c ∈ tok.toList, isQuoteChar c = false ∧ c ≠ '>') :
    searchCapture csrfPat1 ((metaNameFirst q tok).toList) = some tok.toList := by
  have hbnd : ∀ (i : Nat) (h : i < "content=".toList.length),
      ciEq ("content=".toList.get ⟨i, h⟩) q = false := by
    rcases quote_cases q hq with rfl | rfl <;> decide
  have hw_gt : ∀ c ∈ "content=".toList, c ≠ '>' := by decide
  have hgtLit : ciLit "content=".toList ['>'] = false := by decide
  have hconc : ∀ x, 2 ≤ x → x < (' ' :: "content=".toList ++ [q]).length →
      matchItems [RE.lit "content=", RE.quoteCls, RE.plusNonQuoteCap, RE.quoteCls]
        (((' ' :: "content=".toList ++ [q]).drop x) ++ (tok.toList ++ [q, '>'])) = none := by
    intro x h2 hx
    have hx' : x < 10 := by simpa using hx
    rcases quote_cases q hq with rfl | rfl <;> (interval_cases x <;> rfl)
  have hm : matchItems csrfPat1
      ("name=".toList ++ (q :: ("_csrf".toList ++ (q ::
        ((' ' :: "content=".toList ++ [q]) ++ (tok.toList ++ [q, '>']))))))
      = some (some tok.toList) := by
    show matchItems (RE.lit "name=" :: RE.quoteCls :: RE.lit "_csrf" :: RE.quoteCls ::
      RE.starNonGt :: [RE.lit "content=", RE.quoteCls, RE.plusNonQuoteCap, RE.quoteCls]) _ = _
    rw [matchItems_lit_eq, if_pos (ciLit_self_append _ _), List.drop_left,
      matchItems_quote_cons_eq, if_pos hq,
      matchItems_lit_eq, if_pos (ciLit_self_append _ _), List.drop_left,
      matchItems_quote_cons_eq, if_pos hq]
    exact star_seek "content=" q tok.toList hq hbnd hw_gt hgtLit htok hchars hconc
  have hskip : searchCapture csrfPat1
      ("<meta ".toList ++ ("name=".toList ++ (q :: ("_csrf".toList ++ (q ::
        ((' ' :: "content=".toList ++ [q]) ++ (tok.toList ++ [q, '>'])))))))
      = searchCapture csrfPat1
        ("name=".toList ++ (q :: ("_csrf".toList ++ (q ::
          ((' ' :: "content=".toList ++ [q]) ++ (tok.toList ++ [q, '>'])))))) := by
    apply searchCapture_append_skip
    intro n hn
    have hn' : n < 6 := by simpa using hn
    interval_cases n <;> rfl
  have hstr : metaNameFirst q tok
      = ("<meta name=" ++ String.mk [q] ++ "_csrf" ++ String.mk [q]
          ++ " content=" ++ String.mk [q]) ++ (tok ++ (String.mk [q] ++ ">")) := by
    unfold metaNameFirst
    simp only [strAppend_assoc]
  rw [show (metaNameFirst q tok).toList
      = ("<meta name=" ++ String.mk [q] ++ "_csrf" ++ String.mk [q]
          ++ " content=" ++ String.mk [q]).toList
        ++ (tok ++ (String.mk [q] ++ ">")).toList from by rw [hstr]; rfl]
  rw [show (tok ++ (String.mk [q] ++ ">")).toList
      = tok.toList ++ (String.mk [q] ++ ">").toList from rfl]
  refine hskip.trans ?_
  rw [searchCapture_match_some csrfPat1 _ (some tok.toList) hm]
  rfl

theorem matchItems_lit_cons_ne (a : Char) (as : List Char) (s : String)
    (hs : s.toList = a :: as) (c : Char) (hac : ciEq a c = false)
    (rest : List RE) (cs : List Char) :
    matchItems (RE.lit s :: rest) (c :: cs) = none := by
  rw [matchItems_lit_eq]
  have hf : ciLit s.toList (c :: cs) = false := by
    rw [hs]
    show (ciEq a c && ciLit as cs) = false
    rw [hac]
    rfl
  rw [hf]
  rfl

theorem extract_eq_first (html : String) (t : List Char)
    (h1 : searchCapture csrfPat1 html.toList = some t) :
    extractCsrfToken html = some (String.mk t) := by
  unfold extractCsrfToken
  simp only [List.findSome?_cons, h1, Option.map_some']

theorem extract_eq_second (html : String) (t : List Char)
    (h1 : searchCapture csrfPat1 html.toList = none)
    (h2 : searchCapture csrfPat2 html.toList = some t) :
    extractCsrfToken html = some (String.mk t) := by
  unfold extractCsrfToken
  simp only [List.findSome?_cons, h1, h2, Option.map_none', Option.map_some']

theorem extract_eq_third (html : String) (t : List Char)
    (h1 : searchCapture csrfPat1 html.toList = none)
    (h2 : searchCapture csrfPat2 html.toList = none)
    (h3 : searchCapture csrfPat3 html.toList = some t) :
    extractCsrfToken html = some (String.mk t) := by
  unfold extractCsrfToken
  simp only [List.findSome?_cons, h1, h2, h3, Option.map_none', Option.map_some']

theorem extract_eq_fourth (html : String) (t : List Char)
    (h1 : searchCapture csrfPat1 html.toList = none)
    (h2 : searchCapture csrfPat2 html.toList = none)
    (h3 : searchCapture csrfPat3 html.toList = none)
    (h4 : searchCapture csrfPat4 html.toList = some t) :
    extractCsrfToken html = some (String.mk t) := by
  unfold extractCsrfToken
  simp only [List.findSome?_cons, h1, h2, h3, h4, Option.map_none', Option.map_some']

/-- The concrete markup from the closing quote of the token to the end of
a content-first / value-first tag: `" name="_csrf">` without its leading
quote. -/
def sufNameLastE (q : Char) : List Char :=
  (" name=" ++ String.mk [q] ++ "_csrf" ++ String.mk [q] ++ ">").toList

/-- `metaNameFirst` universally: pattern 1 fires. -/
theorem extractCsrfToken_metaNameFirst (q : Char) (tok : String)
    (hq : isQuoteChar q = true) (htok : tok.toList ≠ [])
    (hchars : ∀ c ∈ tok.toList, isQuoteChar c = false ∧ c ≠ '>') :
    extractCsrfToken (metaNameFirst q tok) = some tok :=
  extract_eq_first (metaNameFirst q tok) tok.toList
    (searchCapture_pat1_metaNameFirst q tok hq htok hchars)

/-- `metaContentFirst` universally: pattern 1 matches nowhere and
pattern 2 fires. -/
theorem extractCsrfToken_metaContentFirst (q : Char) (tok : String)
    (hq : isQuoteChar q = true) (htok : tok.toList ≠ [])
    (hchars : ∀ c ∈ tok.toList, isQuoteChar c = false ∧ c ≠ '>') :
    extractCsrfToken (metaContentFirst q tok) = some tok := by
  have hnq : ciEq 'n' q = false := by
    rcases quote_cases q hq with rfl | rfl <;> decide
  have hbndName : ∀ (i : Nat) (h : i < "name=".toList.length),
      ciEq ("name=".toList.get ⟨i, h⟩) q = false := by
    rcases quote_cases q hq with rfl | rfl <;> decide
  have hL : (metaContentFirst q tok).toList
      = ("<meta content=" ++ String.mk [q]).toList
        ++ (tok.toList ++ (q :: sufNameLastE q)) := by
    have hstr : metaContentFirst q tok
        = ("<meta content=" ++ String.mk [q])
          ++ (tok ++ (String.mk [q] ++ (" name=" ++ String.mk [q] ++ "_csrf"
              ++ String.mk [q] ++ ">"))) := by
      unfold metaContentFirst
      simp only [strAppend_assoc]
    rw [hstr]
    rfl
  have hp1 : searchCapture csrfPat1 (metaContentFirst q tok).toList = none := by
    rw [hL]
    have hskipA : searchCapture csrfPat1
        (("<meta content=" ++ String.mk [q]).toList
          ++ (tok.toList ++ (q :: sufNameLastE q)))
        = searchCapture csrfPat1 (tok.toList ++ (q :: sufNameLastE q)) := by
      apply searchCapture_append_skip
      intro n hn
      have h15 : ("<meta content=" ++ String.mk [q]).toList.length = 15 := rfl
      rw [h15] at hn
      interval_cases n <;>
        first
        | rfl
        | exact matchItems_lit_cons_ne 'n' "ame=".toList "name=" rfl q hnq _ _
    have hskipB : searchCapture csrfPat1 (tok.toList ++ (q :: sufNameLastE q))
        = searchCapture csrfPat1 (q :: sufNameLastE q) := by
      apply searchCapture_append_skip
      intro n hn
      exact litQuoteLit_tail_none "name=" "_csrf" q
        [RE.quoteCls, RE.starNonGt, RE.lit "content=", RE.quoteCls,
         RE.plusNonQuoteCap, RE.quoteCls]
        (sufNameLastE q) (tok.toList.drop n) hq hbndName
        (fun c hc => (hchars c (List.mem_of_mem_drop hc)).1) rfl
    have hend : searchCapture csrfPat1 (q :: sufNameLastE q) = none := by
      rcases quote_cases q hq with rfl | rfl <;> decide
    exact hskipA.trans (hskipB.trans hend)
  have hE : matchItems
      (RE.quoteCls :: [RE.starNonGt, RE.lit "name=", RE.quoteCls, RE.lit "_csrf",
        RE.quoteCls]) (q :: sufNameLastE q) ≠ none := by
    rcases quote_cases q hq with rfl | rfl <;> decide
  have hm2 : matchItems csrfPat2
      ("content=".toList ++ (q :: (tok.toList ++ (q :: sufNameLastE q))))
      = some (some tok.toList) := by
    show matchItems (RE.lit "content=" :: RE.quoteCls :: RE.plusNonQuoteCap ::
      RE.quoteCls :: [RE.starNonGt, RE.lit "name=", RE.quoteCls, RE.lit "_csrf",
        RE.quoteCls]) _ = _
    rw [matchItems_lit_eq, if_pos (ciLit_self_append _ _), List.drop_left,
      matchItems_quote_cons_eq, if_pos hq]
    exact plus_greedy_head _ tok.toList (sufNameLastE q) q htok
      (fun c hc => (hchars c hc).1) hq hE
  have hp2 : searchCapture csrfPat2 (metaContentFirst q tok).toList
      = some tok.toList := by
    rw [hL]
    have hskipC : searchCapture csrfPat2
        ("<meta ".toList ++ ("content=".toList ++ (q :: (tok.toList ++ (q :: sufNameLastE q)))))
        = searchCapture csrfPat2
          ("content=".toList ++ (q :: (tok.toList ++ (q :: sufNameLastE q)))) := by
      apply searchCapture_append_skip
      intro n hn
      have h6 : ("<meta ".toList).length = 6 := rfl
      rw [h6] at hn
      interval_cases n <;> rfl
    refine Eq.trans (show _ = searchCapture csrfPat2
        ("<meta ".toList ++ ("content=".toList ++ (q :: (tok.toList ++ (q :: sufNameLastE q)))))
      from rfl) ?_
    rw [hskipC, searchCapture_match_some csrfPat2 _ (some tok.toList) hm2]
    rfl
  exact extract_eq_second (metaContentFirst q tok) tok.toList hp1 hp2

theorem matchItems_lit_cons2_ne (a : Char) (s : String) (b : Char) (bs : List Char)
    (hs : s.toList = a :: b :: bs) (c0 c1 : Char) (cs : List Char)
    (hbc : ciEq b c1 = false) (rest : List RE) :
    matchItems (RE.lit s :: rest) (c0 :: c1 :: cs) = none := by
  rw [matchItems_lit_eq]
  have hf : ciLit s.toList (c0 :: c1 :: cs) = false := by
    rw [hs]
    show (ciEq a c0 && (ciEq b c1 && ciLit bs cs)) = false
    rw [hbc]
    simp
  rw [hf]
  rfl

set_option maxHeartbeats 4000000 in
/-- `inputNameFirst` universally: patterns 1 and 2 match nowhere and
pattern 3 fires. -/
theorem extractCsrfToken_inputNameFirst (q : Char) (tok : String)
    (hq : isQuoteChar q = true) (htok : tok.toList ≠ [])
    (hchars : ∀ c ∈ tok.toList, isQuoteChar c = false ∧ c ≠ '>') :
    extractCsrfToken (inputNameFirst q tok) = some tok := by
  have hnq : ciEq 'n' q = false := by
    rcases quote_cases q hq with rfl | rfl <;> decide
  have haq : ciEq 'a' q = false := by
    rcases quote_cases q hq with rfl | rfl <;> decide
  have hcq : ciEq 'c' q = false := by
    rcases quote_cases q hq with rfl | rfl <;> decide
  have hbndName : ∀ (i : Nat) (h : i < "name=".toList.length),
      ciEq ("name=".toList.get ⟨i, h⟩) q = false := by
    rcases quote_cases q hq with rfl | rfl <;> decide
  have hbndContent : ∀ (i : Nat) (h : i < "content=".toList.length),
      ciEq ("content=".toList.get ⟨i, h⟩) q = false := by
    rcases quote_cases q hq with rfl | rfl <;> decide
  have hbndValue : ∀ (i : Nat) (h : i < "value=".toList.length),
      ciEq ("value=".toList.get ⟨i, h⟩) q = false := by
    rcases quote_cases q hq with rfl | rfl <;> decide
  -- decomposition with the whole concrete prefix before the token
  have hL : (inputNameFirst q tok).toList
      = ("<input type=" ++ String.mk [q] ++ "hidden" ++ String.mk [q] ++ " name="
          ++ String.mk [q] ++ "_csrf" ++ String.mk [q] ++ " value="
          ++ String.mk [q]).toList ++ (tok.toList ++ [q, '>']) := by
    have hstr : inputNameFirst q tok
        = ("<input type=" ++ String.mk [q] ++ "hidden" ++ String.mk [q] ++ " name="
            ++ String.mk [q] ++ "_csrf" ++ String.mk [q] ++ " value="
            ++ String.mk [q]) ++ (tok ++ (String.mk [q] ++ ">")) := by
      unfold inputNameFirst
      simp only [strAppend_assoc]
    rw [hstr]
    rfl
  -- decomposition at the match position (index 21, the n of name=)
  have hLcast : ("<input type=" ++ String.mk [q] ++ "hidden" ++ String.mk [q] ++ " name="
          ++ String.mk [q] ++ "_csrf" ++ String.mk [q] ++ " value="
          ++ String.mk [q]).toList ++ (tok.toList ++ [q, '>'])
      = ("<input type=" ++ String.mk [q] ++ "hidden" ++ String.mk [q] ++ " ").toList
        ++ ("name=".toList ++ (q :: ("_csrf".toList ++ (q ::
          ((' ' :: "value=".toList ++ [q]) ++ (tok.toList ++ [q, '>'])))))) := rfl
  have hLb : (inputNameFirst q tok).toList
      = ("<input type=" ++ String.mk [q] ++ "hidden" ++ String.mk [q] ++ " ").toList
        ++ ("name=".toList ++ (q :: ("_csrf".toList ++ (q ::
          ((' ' :: "value=".toList ++ [q]) ++ (tok.toList ++ [q, '>'])))))) :=
    hL.trans hLcast
  -- the hard prefix position: pattern 1 at the real name= has no content= ahead
  have hpos21 : matchItems csrfPat1
      ("name=".toList ++ (q :: ("_csrf".toList ++ (q ::
        ((' ' :: "value=".toList ++ [q]) ++ (tok.toList ++ [q, '>'])))))) = none := by
    show matchItems (RE.lit "name=" :: RE.quoteCls :: RE.lit "_csrf" :: RE.quoteCls ::
      RE.starNonGt :: [RE.lit "content=", RE.quoteCls, RE.plusNonQuoteCap, RE.quoteCls]) _ = _
    rw [matchItems_lit_eq, if_pos (ciLit_self_append _ _), List.drop_left,
      matchItems_quote_cons_eq, if_pos hq,
      matchItems_lit_eq, if_pos (ciLit_self_append _ _), List.drop_left,
      matchItems_quote_cons_eq, if_pos hq]
    apply star_all_fail "content=" q (' ' :: "value=".toList ++ [q]) tok.toList hq
      hbndContent ?hCgt (by decide) hchars ?hconcAll
    case hCgt =>
      rcases quote_cases q hq with rfl | rfl <;> decide
    case hconcAll =>
      intro x hx
      have hx' : x < 8 := by simpa using hx
      rcases quote_cases q hq with rfl | rfl <;> (interval_cases x <;> rfl)
  -- pattern 1 matches nowhere
  have hp1 : searchCapture csrfPat1 (inputNameFirst q tok).toList = none := by
    rw [hL]
    have hskipA : searchCapture csrfPat1
        (("<input type=" ++ String.mk [q] ++ "hidden" ++ String.mk [q] ++ " name="
            ++ String.mk [q] ++ "_csrf" ++ String.mk [q] ++ " value="
            ++ String.mk [q]).toList ++ (tok.toList ++ [q, '>']))
        = searchCapture csrfPat1 (tok.toList ++ [q, '>']) := by
      apply searchCapture_append_skip
      intro n hn
      have h41 : ("<input type=" ++ String.mk [q] ++ "hidden" ++ String.mk [q]
          ++ " name=" ++ String.mk [q] ++ "_csrf" ++ String.mk [q] ++ " value="
          ++ String.mk [q]).toList.length = 41 := rfl
      rw [h41] at hn
      rcases Nat.lt_trichotomy n 21 with hlt | rfl | hgt
      · interval_cases n <;>
          first
          | rfl
          | exact matchItems_lit_cons_ne 'n' "ame=".toList "name=" rfl q hnq _ _
          | exact matchItems_lit_cons2_ne 'n' "name=" 'a' "me=".toList rfl 'n' q _ haq _
      · exact hpos21
      · interval_cases n <;>
          first
          | rfl
          | exact matchItems_lit_cons_ne 'n' "ame=".toList "name=" rfl q hnq _ _
    have hskipB : searchCapture csrfPat1 (tok.toList ++ [q, '>'])
        = searchCapture csrfPat1 [q, '>'] := by
      apply searchCapture_append_skip
      intro n hn
      exact litQuoteLit_tail_none "name=" "_csrf" q
        [RE.quoteCls, RE.starNonGt, RE.lit "content=", RE.quoteCls,
         RE.plusNonQuoteCap, RE.quoteCls]
        ['>'] (tok.toList.drop n) hq hbndName
        (fun c hc => (hchars c (List.mem_of_mem_drop hc)).1) rfl
    have hend : searchCapture csrfPat1 [q, '>'] = none := by
      rcases quote_cases q hq with rfl | rfl <;> decide
    exact hskipA.trans (hskipB.trans hend)
  -- pattern 2 matches nowhere
  have hp2 : searchCapture csrfPat2 (inputNameFirst q tok).toList = none := by
    rw [hL]
    have hskipA : searchCapture csrfPat2
        (("<input type=" ++ String.mk [q] ++ "hidden" ++ String.mk [q] ++ " name="
            ++ String.mk [q] ++ "_csrf" ++ String.mk [q] ++ " value="
            ++ String.mk [q]).toList ++ (tok.toList ++ [q, '>']))
        = searchCapture csrfPat2 (tok.toList ++ [q, '>']) := by
      apply searchCapture_append_skip
      intro n hn
      have h41 : ("<input type=" ++ String.mk [q] ++ "hidden" ++ String.mk [q]
          ++ " name=" ++ String.mk [q] ++ "_csrf" ++ String.mk [q] ++ " value="
          ++ String.mk [q]).toList.length = 41 := rfl
      rw [h41] at hn
      interval_cases n <;>
        first
        | rfl
        | exact matchItems_lit_cons_ne 'c' "ontent=".toList "content=" rfl q hcq _ _
    have hskipB : searchCapture csrfPat2 (tok.toList ++ [q, '>'])
        = searchCapture csrfPat2 [q, '>'] := by
      apply searchCapture_append_skip
      intro n hn
      exact litQuotePlus_tail_none "content=" q
        [RE.starNonGt, RE.lit "name=", RE.quoteCls, RE.lit "_csrf", RE.quoteCls]
        ['>'] (tok.toList.drop n) hq hbndContent
        (fun c hc => (hchars c (List.mem_of_mem_drop hc)).1) rfl
    have hend : searchCapture csrfPat2 [q, '>'] = none := by
      rcases quote_cases q hq with rfl | rfl <;> decide
    exact hskipA.trans (hskipB.trans hend)
  -- pattern 3 fires at index 21
  have hconcV : ∀ x, 2 ≤ x → x < (' ' :: "value=".toList ++ [q]).length →
      matchItems [RE.lit "value=", RE.quoteCls, RE.plusNonQuoteCap, RE.quoteCls]
        (((' ' :: "value=".toList ++ [q]).drop x) ++ (tok.toList ++ [q, '>'])) = none := by
    intro x h2 hx
    have hx' : x < 8 := by simpa using hx
    rcases quote_cases q hq with rfl | rfl <;> (interval_cases x <;> rfl)
  have hm3 : matchItems csrfPat3
      ("name=".toList ++ (q :: ("_csrf".toList ++ (q ::
        ((' ' :: "value=".toList ++ [q]) ++ (tok.toList ++ [q, '>']))))))
      = some (some tok.toList) := by
    show matchItems (RE.lit "name=" :: RE.quoteCls :: RE.lit "_csrf" :: RE.quoteCls ::
      RE.starNonGt :: [RE.lit "value=", RE.quoteCls, RE.plusNonQuoteCap, RE.quoteCls]) _ = _
    rw [matchItems_lit_eq, if_pos (ciLit_self_append _ _), List.drop_left,
      matchItems_quote_cons_eq, if_pos hq,
      matchItems_lit_eq, if_pos (ciLit_self_append _ _), List.drop_left,
      matchItems_quote_cons_eq, if_pos hq]
    exact star_seek "value=" q tok.toList hq hbndValue (by decide) (by decide)
      htok hchars hconcV
  have hp3 : searchCapture csrfPat3 (inputNameFirst q tok).toList = some tok.toList := by
    rw [hLb]
    have hskipC : searchCapture csrfPat3
        (("<input type=" ++ String.mk [q] ++ "hidden" ++ String.mk [q] ++ " ").toList
          ++ ("name=".toList ++ (q :: ("_csrf".toList ++ (q ::
            ((' ' :: "value=".toList ++ [q]) ++ (tok.toList ++ [q, '>'])))))))
        = searchCapture csrfPat3
          ("name=".toList ++ (q :: ("_csrf".toList ++ (q ::
            ((' ' :: "value=".toList ++ [q]) ++ (tok.toList ++ [q, '>'])))))) := by
      apply searchCapture_append_skip
      intro n hn
      have h21 : ("<input type=" ++ String.mk [q] ++ "hidden" ++ String.mk [q]
          ++ " ").toList.length = 21 := rfl
      rw [h21] at hn
      interval_cases n <;>
        first
        | rfl
        | exact matchItems_lit_cons_ne 'n' "ame=".toList "name=" rfl q hnq _ _
        | exact matchItems_lit_cons2_ne 'n' "name=" 'a' "me=".toList rfl 'n' q _ haq _
    rw [hskipC, searchCapture_match_some csrfPat3 _ (some tok.toList) hm3]
    rfl
  exact extract_eq_third (inputNameFirst q tok) tok.toList hp1 hp2 hp3

set_option maxHeartbeats 4000000 in
/-- `inputValueFirst` universally: patterns 1, 2 and 3 match nowhere and
pattern 4 fires. -/
theorem extractCsrfToken_inputValueFirst (q : Char) (tok : String)
    (hq : isQuoteChar q = true) (htok : tok.toList ≠ [])
    (hchars : ∀ c ∈ tok.toList, isQuoteChar c = false ∧ c ≠ '>') :
    extractCsrfToken (inputValueFirst q tok) = some tok := by
  have hnq : ciEq 'n' q = false := by
    rcases quote_cases q hq with rfl | rfl <;> decide
  have haq : ciEq 'a' q = false := by
    rcases quote_cases q hq with rfl | rfl <;> decide
  have hcq : ciEq 'c' q = false := by
    rcases quote_cases q hq with rfl | rfl <;> decide
  have hvq : ciEq 'v' q = false := by
    rcases quote_cases q hq with rfl | rfl <;> decide
  have hbndName : ∀ (i : Nat) (h : i < "name=".toList.length),
      ciEq ("name=".toList.get ⟨i, h⟩) q = false := by
    rcases quote_cases q hq with rfl | rfl <;> decide
  have hbndContent : ∀ (i : Nat) (h : i < "content=".toList.length),
      ciEq ("content=".toList.get ⟨i, h⟩) q = false := by
    rcases quote_cases q hq with rfl | rfl <;> decide
  -- decomposition with the whole concrete prefix before the token
  have hL : (inputValueFirst q tok).toList
      = ("<input type=" ++ String.mk [q] ++ "hidden" ++ String.mk [q] ++ " value="
          ++ String.mk [q]).toList ++ (tok.toList ++ (q :: sufNameLastE q)) := by
    have hstr : inputValueFirst q tok
        = ("<input type=" ++ String.mk [q] ++ "hidden" ++ String.mk [q] ++ " value="
            ++ String.mk [q]) ++ (tok ++ (String.mk [q] ++ (" name="
              ++ String.mk [q] ++ "_csrf" ++ String.mk [q] ++ ">"))) := by
      unfold inputValueFirst
      simp only [strAppend_assoc]
    rw [hstr]
    rfl
  -- decomposition at the match position (index 21, the v of value=)
  have hLcast : ("<input type=" ++ String.mk [q] ++ "hidden" ++ String.mk [q]
          ++ " value=" ++ String.mk [q]).toList ++ (tok.toList ++ (q :: sufNameLastE q))
      = ("<input type=" ++ String.mk [q] ++ "hidden" ++ String.mk [q] ++ " ").toList
        ++ ("value=".toList ++ (q :: (tok.toList ++ (q :: sufNameLastE q)))) := rfl
  have hLb : (inputValueFirst q tok).toList
      = ("<input type=" ++ String.mk [q] ++ "hidden" ++ String.mk [q] ++ " ").toList
        ++ ("value=".toList ++ (q :: (tok.toList ++ (q :: sufNameLastE q)))) :=
    hL.trans hLcast
  -- pattern 1 matches nowhere
  have hp1 : searchCapture csrfPat1 (inputValueFirst q tok).toList = none := by
    rw [hL]
    have hskipA : searchCapture csrfPat1
        (("<input type=" ++ String.mk [q] ++ "hidden" ++ String.mk [q] ++ " value="
            ++ String.mk [q]).toList ++ (tok.toList ++ (q :: sufNameLastE q)))
        = searchCapture csrfPat1 (tok.toList ++ (q :: sufNameLastE q)) := by
      apply searchCapture_append_skip
      intro n hn
      have h28 : ("<input type=" ++ String.mk [q] ++ "hidden" ++ String.mk [q]
          ++ " value=" ++ String.mk [q]).toList.length = 28 := rfl
      rw [h28] at hn
      interval_cases n <;>
        first
        | rfl
        | exact matchItems_lit_cons_ne 'n' "ame=".toList "name=" rfl q hnq _ _
        | exact matchItems_lit_cons2_ne 'n' "name=" 'a' "me=".toList rfl 'n' q _ haq _
    have hskipB : searchCapture csrfPat1 (tok.toList ++ (q :: sufNameLastE q))
        = searchCapture csrfPat1 (q :: sufNameLastE q) := by
      apply searchCapture_append_skip
      intro n hn
      exact litQuoteLit_tail_none "name=" "_csrf" q
        [RE.quoteCls, RE.starNonGt, RE.lit "content=", RE.quoteCls,
         RE.plusNonQuoteCap, RE.quoteCls]
        (sufNameLastE q) (tok.toList.drop n) hq hbndName
        (fun c hc => (hchars c (List.mem_of_mem_drop hc)).1) rfl
    have hend : searchCapture csrfPat1 (q :: sufNameLastE q) = none := by
      rcases quote_cases q hq with rfl | rfl <;> decide
    exact hskipA.trans (hskipB.trans hend)
  -- pattern 2 matches nowhere
  have hp2 : searchCapture csrfPat2 (inputValueFirst q tok).toList = none := by
    rw [hL]
    have hskipA : searchCapture csrfPat2
        (("<input type=" ++ String.mk [q] ++ "hidden" ++ String.mk [q] ++ " value="
            ++ String.mk [q]).toList ++ (tok.toList ++ (q :: sufNameLastE q)))
        = searchCapture csrfPat2 (tok.toList ++ (q :: sufNameLastE q)) := by
      apply searchCapture_append_skip
      intro n hn
      have h28 : ("<input type=" ++ String.mk [q] ++ "hidden" ++ String.mk [q]
          ++ " value=" ++ String.mk [q]).toList.length = 28 := rfl
      rw [h28] at hn
      interval_cases n <;>
        first
        | rfl
        | exact matchItems_lit_cons_ne 'c' "ontent=".toList "content=" rfl q hcq _ _
    have hskipB : searchCapture csrfPat2 (tok.toList ++ (q :: sufNameLastE q))
        = searchCapture csrfPat2 (q :: sufNameLastE q) := by
      apply searchCapture_append_skip
      intro n hn
      exact litQuotePlus_tail_none "content=" q
        [RE.starNonGt, RE.lit "name=", RE.quoteCls, RE.lit "_csrf", RE.quoteCls]
        (sufNameLastE q) (tok.toList.drop n) hq hbndContent
        (fun c hc => (hchars c (List.mem_of_mem_drop hc)).1)
        (by rcases quote_cases q hq with rfl | rfl <;> decide)
    have hend : searchCapture csrfPat2 (q :: sufNameLastE q) = none := by
      rcases quote_cases q hq with rfl | rfl <;> decide
    exact hskipA.trans (hskipB.trans hend)
  -- pattern 3 matches nowhere
  have hp3 : searchCapture csrfPat3 (inputValueFirst q tok).toList = none := by
    rw [hL]
    have hskipA : searchCapture csrfPat3
        (("<input type=" ++ String.mk [q] ++ "hidden" ++ String.mk [q] ++ " value="
            ++ String.mk [q]).toList ++ (tok.toList ++ (q :: sufNameLastE q)))
        = searchCapture csrfPat3 (tok.toList ++ (q :: sufNameLastE q)) := by
      apply searchCapture_append_skip
      intro n hn
      have h28 : ("<input type=" ++ String.mk [q] ++ "hidden" ++ String.mk [q]
          ++ " value=" ++ String.mk [q]).toList.length = 28 := rfl
      rw [h28] at hn
      interval_cases n <;>
        first
        | rfl
        | exact matchItems_lit_cons_ne 'n' "ame=".toList "name=" rfl q hnq _ _
        | exact matchItems_lit_cons2_ne 'n' "name=" 'a' "me=".toList rfl 'n' q _ haq _
    have hskipB : searchCapture csrfPat3 (tok.toList ++ (q :: sufNameLastE q))
        = searchCapture csrfPat3 (q :: sufNameLastE q) := by
      apply searchCapture_append_skip
      intro n hn
      exact litQuoteLit_tail_none "name=" "_csrf" q
        [RE.quoteCls, RE.starNonGt, RE.lit "value=", RE.quoteCls,
         RE.plusNonQuoteCap, RE.quoteCls]
        (sufNameLastE q) (tok.toList.drop n) hq hbndName
        (fun c hc => (hchars c (List.mem_of_mem_drop hc)).1) rfl
    have hend : searchCapture csrfPat3 (q :: sufNameLastE q) = none := by
      rcases quote_cases q hq with rfl | rfl <;> decide
    exact hskipA.trans (hskipB.trans hend)
  -- pattern 4 fires at index 21
  have hE4 : matchItems
      (RE.quoteCls :: [RE.starNonGt, RE.lit "name=", RE.quoteCls, RE.lit "_csrf",
        RE.quoteCls]) (q :: sufNameLastE q) ≠ none := by
    rcases quote_cases q hq with rfl | rfl <;> decide
  have hm4 : matchItems csrfPat4
      ("value=".toList ++ (q :: (tok.toList ++ (q :: sufNameLastE q))))
      = some (some tok.toList) := by
    show matchItems (RE.lit "value=" :: RE.quoteCls :: RE.plusNonQuoteCap ::
      RE.quoteCls :: [RE.starNonGt, RE.lit "name=", RE.quoteCls, RE.lit "_csrf",
        RE.quoteCls]) _ = _
    rw [matchItems_lit_eq, if_pos (ciLit_self_append _ _), List.drop_left,
      matchItems_quote_cons_eq, if_pos hq]
    exact plus_greedy_head _ tok.toList (sufNameLastE q) q htok
      (fun c hc => (hchars c hc).1) hq hE4
  have hp4 : searchCapture csrfPat4 (inputValueFirst q tok).toList
      = some tok.toList := by
    rw [hLb]
    have hskipD : searchCapture csrfPat4
        (("<input type=" ++ String.mk [q] ++ "hidden" ++ String.mk [q] ++ " ").toList
          ++ ("value=".toList ++ (q :: (tok.toList ++ (q :: sufNameLastE q)))))
        = searchCapture csrfPat4
          ("value=".toList ++ (q :: (tok.toList ++ (q :: sufNameLastE q)))) := by
      apply searchCapture_append_skip
      intro n hn
      have h21 : ("<input type=" ++ String.mk [q] ++ "hidden" ++ String.mk [q]
          ++ " ").toList.length = 21 := rfl
      rw [h21] at hn
      interval_cases n <;>
        first
        | rfl
        | exact matchItems_lit_cons_ne 'v' "alue=".toList "value=" rfl q hvq _ _
    rw [hskipD, searchCapture_match_some csrfPat4 _ (some tok.toList) hm4]
    rfl
  exact extract_eq_fourth (inputValueFirst q tok) tok.toList hp1 hp2 hp3 hp4

/-- C4: for every token (nonempty, free of quotes and `>`) and either
quoting style, the scraper recovers the token from a meta tag or a hidden
input in either attribute order; it returns no token for any markup with
no case-insensitive occurrence of `_csrf` at all; and when the login page
yields no token the login protocol fails with the protocol error
(`Failed to extract CSRF token from HAC login page`) instead of
proceeding. -/
theorem extractCsrfToken_spec :
    (∀ (q : Char) (tok : String), isQuoteChar q = true → tok.toList ≠ [] →
       (∀ c ∈ tok.toList, isQuoteChar c = false ∧ c ≠ '>') →
         extractCsrfToken (metaNameFirst q tok) = some tok
       ∧ extractCsrfToken (metaContentFirst q tok) = some tok
       ∧ extractCsrfToken (inputNameFirst q tok) = some tok
       ∧ extractCsrfToken (inputValueFirst q tok) = some tok)
  ∧ (∀ html : String, ciHasSub "_csrf".toList html.toList = false →
       extractCsrfToken html = none)
  ∧ (∀ (cfg : HybrisConfig) (s : ClientState) (r : HttpResponse),
       s.hacSession = none → s.oracle s.calls = .reply r →
       (r.status == 302) = false → extractCsrfToken r.body = none →
       (ensureHacSession cfg s).1
         = .error "Failed to extract CSRF token from HAC login page") := by
  refine ⟨fun q tok hq htok hchars =>
    ⟨extractCsrfToken_metaNameFirst q tok hq htok hchars,
     extractCsrfToken_metaContentFirst q tok hq htok hchars,
     extractCsrfToken_inputNameFirst q tok hq htok hchars,
     extractCsrfToken_inputValueFirst q tok hq htok hchars⟩,
    extractCsrfToken_none_of_no_csrf, ?_⟩
  intro cfg s r hs horc h302 htk
  unfold ensureHacSession fetchWithTimeout
  rw [hs, horc]
  simp only [h302, Bool.false_eq_true, if_false]
  unfold hacLoginFinish
  rw [htk]

/-- Witness for C4: the universal extraction at a concrete token in both
quoting styles and both tag kinds, the no-`_csrf` markup refusal at a
concrete page, and the protocol failure at a concrete scripted login page
without a token. -/
theorem extractCsrfToken_spec_witness :
    extractCsrfToken (metaNameFirst dquoteChar "tok99") = some "tok99"
  ∧ extractCsrfToken (inputValueFirst squoteChar "tok99") = some "tok99"
  ∧ extractCsrfToken "<p>plain page with no token</p>" = none
  ∧ (ensureHacSession demoConfig
        (initialState none
          [.reply { status := 200, contentType := some "text/html",
                    body := "<p>plain page with no token</p>" }])).1
      = .error "Failed to extract CSRF token from HAC login page" :=
  ⟨(extractCsrfToken_spec.1 dquoteChar "tok99" rfl (by decide) (by decide)).1,
   (extractCsrfToken_spec.1 squoteChar "tok99" rfl (by decide) (by decide)).2.2.2,
   extractCsrfToken_spec.2.1 "<p>plain page with no token</p>" rfl,
   extractCsrfToken_spec.2.2 demoConfig
     (initialState none
       [.reply { status := 200, contentType := some "text/html",
                 body := "<p>plain page with no token</p>" }])
     { status := 200, contentType := some "text/html",
       body := "<p>plain page with no token</p>" } rfl rfl rfl rfl⟩
